import Mathlib

/-!
Verification of the "Caro Nổ" (explosive five-in-a-row) rule engine, turn
controller and AI strategy tiers, as implemented in `src/index.tsx` (with the
near-duplicate variant in `src/unnamed/part_000`).

Modelling conventions:
* A board is a total function `Int → Int → Int` holding the cell values
  `0 = EMPTY`, `1 = PLAYER_BLACK`, `2 = PLAYER_WHITE`.  Every read the source
  performs is guarded by explicit bounds checks, so values outside the 15×15
  window are never consulted; the one unguarded column access in the Strong
  tier is modelled with the `Option`-returning `cellAt` (JavaScript yields
  `undefined` there, which compares unequal to any player).
* The `while` loops of `checkLongLines` walk at most 14 cells before leaving
  the board, so they are modelled by fuel recursion with fuel 15.
* `Math.random()`-derived quantities (the random candidate index of the Easy
  tier and the additive tie-break jitter of the Medium/Strong tiers) are
  passed in as explicit parameters; every theorem below holds for all values
  of these parameters.
* The JavaScript `Set`-based deduplication keeps the first occurrence of each
  element in insertion order; `dedupFirst` below does the same.
-/

def EMPTY : Int := 0

def PLAYER_BLACK : Int := 1

def PLAYER_WHITE : Int := 2

/-- Board state: `board r c` is the cell value at row `r`, column `c`. -/
abbrev Board := Int → Int → Int

/-- In-bounds predicate for the fixed 15×15 board. -/
def inBoard (r c : Int) : Prop := 0 ≤ r ∧ r < 15 ∧ 0 ≤ c ∧ c < 15

instance (r c : Int) : Decidable (inBoard r c) := by
  unfold inBoard
  infer_instance

/-- Guarded cell test used throughout `checkLongLines` and the strategy tiers:
the JavaScript condition `r >= 0 && r < 15 && c >= 0 && c < 15 && board[r][c] === player`. -/
def cellIs (board : Board) (player r c : Int) : Bool :=
  decide (inBoard r c ∧ board r c = player)

/-- The four axis directions scanned by `checkLongLines`:
horizontal, vertical, diagonal ↘ and diagonal ↗. -/
def directions : List (Int × Int) := [(0, 1), (1, 0), (1, 1), (1, -1)]

/-- Fuel-based embedding of the `while` loops of `checkLongLines`: starting at
`(r, c)` and stepping by `(dx, dy)`, collect cells while they are in bounds and
hold `player`.  Fuel 15 is enough: a nonzero direction leaves the board within
14 steps. -/
def walk (board : Board) (player r c dx dy : Int) : Nat → List (Int × Int)
  | 0 => []
  | fuel + 1 =>
    if cellIs board player r c then
      (r, c) :: walk board player (r + dx) (c + dy) dx dy fuel
    else []

/-- Cells collected by the forward (`+ dx, + dy`) loop of `checkLongLines`. -/
def fwdCells (board : Board) (player r c dx dy : Int) : List (Int × Int) :=
  walk board player (r + dx) (c + dy) dx dy 15

/-- Cells collected by the backward (`- dx, - dy`) loop of `checkLongLines`. -/
def bwdCells (board : Board) (player r c dx dy : Int) : List (Int × Int) :=
  walk board player (r - dx) (c - dy) (-dx) (-dy) 15

/-- The `lineCells` list of one direction of `checkLongLines`: the origin cell
followed by the forward cells and then the backward cells. -/
def dirLineCells (board : Board) (player r c dx dy : Int) : List (Int × Int) :=
  (r, c) :: (fwdCells board player r c dx dy ++ bwdCells board player r c dx dy)

/-- The `count` variable of one direction of `checkLongLines`: it starts at 1
and is incremented once per cell pushed by either loop. -/
def dirCount (board : Board) (player r c dx dy : Int) : Nat :=
  1 + (fwdCells board player r c dx dy).length + (bwdCells board player r c dx dy).length

/-- First-occurrence, order-preserving deduplication; this is what the
JavaScript `Set`-keyed dedup of `checkLongLines` (and the `neighbors` set of
`getEmptyNeighbors`) computes. -/
def dedupFirstAux (seen : List (Int × Int)) : List (Int × Int) → List (Int × Int)
  | [] => []
  | x :: xs =>
    if x ∈ seen then dedupFirstAux seen xs
    else x :: dedupFirstAux (x :: seen) xs

/-- Deduplicate a coordinate list, keeping first occurrences in order. -/
def dedupFirst (l : List (Int × Int)) : List (Int × Int) :=
  dedupFirstAux [] l

/-- The `allStonesInLine` accumulator of `checkLongLines`: for each of the four
directions, if the total count reaches 5 or more, all visited cells of that
direction join the removal list. -/
def allStonesOf (board : Board) (lastRow lastCol player : Int) : List (Int × Int) :=
  directions.flatMap (fun d =>
    if 5 ≤ dirCount board player lastRow lastCol d.1 d.2 then
      dirLineCells board player lastRow lastCol d.1 d.2
    else [])

/-- Embedding of `checkLongLines(board, lastRow, lastCol, player)`: for each of
the four directions, walk both ways from the placed cell; if the total count
reaches 5 or more, all visited cells of that direction join the removal list;
the list is deduplicated, and `none` is returned when it is empty. -/
def checkLongLines (board : Board) (lastRow lastCol player : Int) : Option (List (Int × Int)) :=
  let uniqueStones := dedupFirst (allStonesOf board lastRow lastCol player)
  if 0 < uniqueStones.length then some uniqueStones else none

/-- Embedding of `isBoardFull`: no empty cell remains. -/
def isBoardFull (board : Board) : Bool :=
  (List.range 15).all (fun r => (List.range 15).all (fun c =>
    !(board (r : Int) (c : Int) = EMPTY)))

/-- Number of cells of the board holding the value `v` (helper for
`countStones`). -/
def countCells (board : Board) (v : Int) : Nat :=
  ((List.range 15).map (fun r =>
    ((List.range 15).filter (fun c => board (r : Int) (c : Int) = v)).length)).sum

/-- Embedding of `countStones`: the pair (black stone count, white stone count). -/
def countStones (board : Board) : Nat × Nat :=
  (countCells board PLAYER_BLACK, countCells board PLAYER_WHITE)

/-- Functional update placing value `v` at cell `(r, c)`. -/
def setCell (board : Board) (r c v : Int) : Board :=
  fun r' c' => if r' = r ∧ c' = c then v else board r' c'

/-- Resetting every cell of `l` to `EMPTY`, as the explosion loop of
`processTurn` does. -/
def clearCells (board : Board) (l : List (Int × Int)) : Board :=
  fun r c => if (r, c) ∈ l then EMPTY else board r c

/-- Specification-side notion for the rule-engine claim: all offsets `j` with
`a ≤ j ≤ e` along direction `(dx, dy)` from `(r, c)` are in-bounds cells
holding `player`. -/
def segColored (board : Board) (player r c dx dy a e : Int) : Prop :=
  ∀ j : Int, a ≤ j → j ≤ e → cellIs board player (r + dx * j) (c + dy * j) = true

/-- Specification-side notion: a contiguous same-color run of length ≥ 5 along
direction `(dx, dy)` passing through the cell `(r, c)` (offset 0 lies inside
the segment `[a, e]`, which has at least 5 cells). -/
def runThru (board : Board) (player r c dx dy : Int) : Prop :=
  ∃ a e : Int, a ≤ 0 ∧ 0 ≤ e ∧ 4 ≤ e - a ∧ segColored board player r c dx dy a e

/-- Candidate cells gathered by the scan loops of `getEmptyNeighbors`, before
deduplication: for every occupied cell, every in-bounds empty cell within the
given Chebyshev distance, in scan order. -/
def neighborRaw (board : Board) (distance : Nat) : List (Int × Int) :=
  let offsets := (List.range (2 * distance + 1)).map (fun i : Nat => (i : Int) - (distance : Int))
  (List.range 15).flatMap (fun r =>
    (List.range 15).flatMap (fun c =>
      if board (r : Int) (c : Int) ≠ EMPTY then
        offsets.flatMap (fun dr =>
          offsets.filterMap (fun dc =>
            let nr := (r : Int) + dr
            let nc := (c : Int) + dc
            if inBoard nr nc ∧ board nr nc = EMPTY then some (nr, nc) else none))
      else []))

/-- Embedding of `getEmptyNeighbors(board, distance)`: deduplicated empty
neighbours of occupied cells; when there are none, the single fallback
candidate is the centre cell `(7, 7)`. -/
def getEmptyNeighbors (board : Board) (distance : Nat) : List (Int × Int) :=
  let moves := dedupFirst (neighborRaw board distance)
  if moves.length = 0 then [(7, 7)] else moves

/-- Embedding of `getEasyMove(board, aiPlayer)`; the index
`Math.floor(Math.random() * moves.length)` is passed in as `randomIdx`. -/
def getEasyMove (board : Board) (aiPlayer : Int) (randomIdx : Nat) : Int × Int :=
  let moves := getEmptyNeighbors board 1
  if moves.length = 0 then (7, 7) else moves.getD randomIdx (7, 7)

/-- Fuel-based embedding of the bounded `for (k = 1; k < 5; ...)` scans inside
the Medium tier's `evaluate`: returns the pair `(countAI, openEnds)` collected
from offset `k` onwards.  An out-of-bounds step is skipped (no break), a
same-player cell increments `countAI`, an empty cell increments `openEnds` and
breaks, an opponent cell breaks. -/
def medLoop (board : Board) (player r c dx dy k : Int) : Nat → Nat × Nat
  | 0 => (0, 0)
  | fuel + 1 =>
    let nr := r + dx * k
    let nc := c + dy * k
    if inBoard nr nc then
      if board nr nc = player then
        let rest := medLoop board player r c dx dy (k + 1) fuel
        (rest.1 + 1, rest.2)
      else if board nr nc = EMPTY then (0, 1)
      else (0, 0)
    else medLoop board player r c dx dy (k + 1) fuel

/-- Embedding of the Medium tier's `evaluate(r, c, player, currentBoard)`; the
`Math.random() * 5` tie-break is the parameter `jit`. -/
def evaluateMedium (board : Board) (player r c : Int) (jit : Int) : Int :=
  match checkLongLines board r c player with
  | some stonesExploded => -1000 * (stonesExploded.length : Int)
  | none =>
    (directions.map (fun d =>
      let f := medLoop board player r c d.1 d.2 1 4
      let g := medLoop board player r c (-d.1) (-d.2) 1 4
      let countAI := f.1 + g.1
      let openEnds := f.2 + g.2
      ((if countAI = 3 ∧ 0 < openEnds then (50 : Int) else 0) +
       (if countAI = 2 ∧ 0 < openEnds then (10 : Int) else 0)))).sum + jit

/-- Embedding of `getMediumMove(board, aiPlayer)`: place each candidate on a
copy of the board, evaluate it, and keep the first maximum (strict `>`
updates, starting from `bestScore = -Infinity`, which every finite score
beats; the accumulator is `none` until the first candidate is scored).  The
per-candidate jitter is `jit i` for the `i`-th candidate. -/
def getMediumMove (board : Board) (aiPlayer : Int) (jit : Nat → Int) : Int × Int :=
  let moves := getEmptyNeighbors board 1
  let best := moves.enum.foldl (fun acc p =>
    let tempBoard := setCell board p.2.1 p.2.2 aiPlayer
    let score := evaluateMedium tempBoard aiPlayer p.2.1 p.2.2 (jit p.1)
    match acc with
    | none => some (p.2, score)
    | some a => if a.2 < score then some (p.2, score) else some a) none
  match best with
  | some a => a.1
  | none => (7, 7)

/-- JavaScript two-dimensional array read `board[r][c]` without a bounds
guard: `none` models the `undefined` produced by an out-of-range index. -/
def cellAt (board : Board) (r c : Int) : Option Int :=
  if inBoard r c then some (board r c) else none

/-- First-pass score of a Strong-tier candidate: `-10000` per stone the
placement would explode, otherwise 0. -/
def strongInitialScore (board : Board) (aiPlayer : Int) (m : Int × Int) : Int :=
  let tempBoard := setCell board m.1 m.2 aiPlayer
  match checkLongLines tempBoard m.1 m.2 aiPlayer with
  | some exploded => -10000 * (exploded.length : Int)
  | none => 0

/-- The Strong tier's immediate-neighbour `lineCount` for one direction.  The
source guards only the ROW index (`r+dx < 15 && r+dx >= 0`) before reading
`tempBoard[r+dx][c+dy]`; the column may be out of range, in which case the
JavaScript read yields `undefined`, modelled here by `cellAt` returning
`none`, which is unequal to `some aiPlayer`. -/
def strongLineCount (tempBoard : Board) (aiPlayer r c dx dy : Int) : Nat :=
  1 + (if r + dx < 15 ∧ 0 ≤ r + dx ∧ cellAt tempBoard (r + dx) (c + dy) = some aiPlayer
       then 1 else 0)
    + (if r - dx < 15 ∧ 0 ≤ r - dx ∧ cellAt tempBoard (r - dx) (c - dy) = some aiPlayer
       then 1 else 0)

/-- Score adjustment derived from one direction's `lineCount` in the Strong
tier. -/
def strongDirScore (lineCount : Nat) : Int :=
  (if lineCount = 3 then (-50 : Int) else 0) +
  (if lineCount = 4 then (-200 : Int) else 0) +
  (if lineCount = 2 then (10 : Int) else 0)

/-- The eight neighbour offsets scanned by the liberty count (`dr`, `dc` from
-1 to 1, skipping `(0,0)`), in loop order. -/
def libertyOffsets : List (Int × Int) :=
  [(-1, -1), (-1, 0), (-1, 1), (0, -1), (0, 1), (1, -1), (1, 0), (1, 1)]

/-- Number of empty in-bounds cells adjacent to `(r, c)` ("liberties"). -/
def countLiberties (tempBoard : Board) (r c : Int) : Nat :=
  (libertyOffsets.filter (fun d =>
    decide (inBoard (r + d.1) (c + d.2) ∧ tempBoard (r + d.1) (c + d.2) = EMPTY))).length

/-- Second-pass score of a Strong-tier candidate: candidates that explode
(score < -5000) are skipped; the rest gain the direction scores, five points
per liberty, and the `Math.random() * 2` jitter `jit`. -/
def strongAdjustedScore (board : Board) (aiPlayer : Int) (m : Int × Int)
    (base : Int) (jit : Int) : Int :=
  if base < -5000 then base
  else
    let tempBoard := setCell board m.1 m.2 aiPlayer
    let moveScore :=
      (directions.map (fun d =>
        strongDirScore (strongLineCount tempBoard aiPlayer m.1 m.2 d.1 d.2))).sum +
      (countLiberties tempBoard m.1 m.2 : Int) * 5
    base + moveScore + jit

/-- Embedding of `getSuperStrongMove(board, aiPlayer)`: score each candidate,
sort descending by score (the JavaScript comparator `b.score - a.score`;
`insertionSort` produces a sorted permutation as `Array.prototype.sort`
does), and return the best move, falling back to the centre cell when no
candidate exists. -/
def getSuperStrongMove (board : Board) (aiPlayer : Int) (jit : Nat → Int) : Int × Int :=
  let moves := getEmptyNeighbors board 1
  let candidates := moves.enum.map (fun p =>
    (p.2, strongAdjustedScore board aiPlayer p.2 (strongInitialScore board aiPlayer p.2)
      (jit p.1)))
  match candidates.insertionSort (fun a b => b.2 ≤ a.2) with
  | [] => (7, 7)
  | best :: _ => best.1

/-- Embedding of the strategy dispatch of `makeAiMove` in `src/index.tsx`: the
difficulty value is a runtime string; `"EASY"` selects the Easy tier,
`"MEDIUM"` the Medium tier, and every other value falls through to the
Strong tier. -/
def makeAiMoveChoice (difficulty : String) (board : Board) (aiPlayer : Int)
    (randomIdx : Nat) (jit : Nat → Int) : Int × Int :=
  if difficulty = "EASY" then getEasyMove board aiPlayer randomIdx
  else if difficulty = "MEDIUM" then getMediumMove board aiPlayer jit
  else getSuperStrongMove board aiPlayer jit

/-- Winner tag of a terminal verdict.  The source stores mode-dependent display
names ("BẠN"/"MÁY"/"NGƯỜI CHƠI 1"/... or "HÒA"); `p1`, `p2` and `tie` stand
for the P1 name, the P2 name and the tie name respectively. -/
inductive Who
  | p1
  | p2
  | tie
deriving DecidableEq, Repr

/-- Reason tag of a terminal verdict, standing for the reason strings of the
source: dominant win ("Thắng áp đảo ..."), higher score ("Điểm cao hơn"),
tie broken by surplus stones ("Hòa điểm, nhưng ... còn nhiều hơn ..."), and
full tie ("Hòa điểm và bằng số quân"). -/
inductive Why
  | dominantWin
  | higherScore
  | fewerStonesWin
  | fullTie
deriving DecidableEq, Repr

/-- The `p1Stones` tally of `getGameResult`: stones of the color Player 1
currently holds (`currentHumanColor` is Player 1's current stone color; the
`gameMode` parameter of the source only selects display names and is
dropped). -/
def p1StonesOf (finalBoard : Board) (currentHumanColor : Int) : Nat :=
  if currentHumanColor = PLAYER_BLACK then (countStones finalBoard).1
  else (countStones finalBoard).2

/-- The `p2Stones` tally of `getGameResult`: stones of the color Player 2
currently holds. -/
def p2StonesOf (finalBoard : Board) (currentHumanColor : Int) : Nat :=
  if currentHumanColor = PLAYER_BLACK then (countStones finalBoard).2
  else (countStones finalBoard).1

/-- Embedding of `getGameResult(currentScores, finalBoard, currentHumanColor,
gameMode)` body: higher score wins outright; on equal scores the seat holding
more stones of its current color loses; equal on both counts is a full tie. -/
def getGameResult (p1Score p2Score : Nat) (finalBoard : Board)
    (currentHumanColor : Int) : Who × Why :=
  if p2Score < p1Score then (Who.p1, Why.higherScore)
  else if p1Score < p2Score then (Who.p2, Why.higherScore)
  else if p2StonesOf finalBoard currentHumanColor < p1StonesOf finalBoard currentHumanColor then
    (Who.p2, Why.fewerStonesWin)
  else if p1StonesOf finalBoard currentHumanColor < p2StonesOf finalBoard currentHumanColor then
    (Who.p1, Why.fewerStonesWin)
  else (Who.tie, Why.fullTie)

/-- The removal set of the placed move, as `processTurn` uses it: the guard
`stonesToExplode && stonesToExplode.length > 0` collapses `null` and an empty
list to "no explosion". -/
def explodedOf (newBoard : Board) (r c playerWhoMoved : Int) : List (Int × Int) :=
  match checkLongLines newBoard r c playerWhoMoved with
  | some l => if 0 < l.length then l else []
  | none => []

/-- The `p1IsBlack` flag of `processTurn`: the swap cycle derived from the
turn counter in effect before this move (`Math.floor(currentTurnBase / 30)`),
even cycles meaning Player 1 holds Black. -/
def p1IsBlackAt (currentTurnBase : Nat) : Bool :=
  (currentTurnBase / 30) % 2 = 0

/-- The `isP1` flag of `processTurn`: whether the seat currently holding the
mover's color is Player 1. -/
def moverIsP1 (currentTurnBase : Nat) (playerWhoMoved : Int) : Bool :=
  if p1IsBlackAt currentTurnBase then playerWhoMoved = PLAYER_BLACK
  else playerWhoMoved = PLAYER_WHITE

/-- Player 1's score after the explosion step of `processTurn` (unchanged when
nothing explodes or when Player 1 is the mover). -/
def scoreP1After (newBoard : Board) (r c playerWhoMoved : Int)
    (basep1 : Nat) (currentTurnBase : Nat) : Nat :=
  if 0 < (explodedOf newBoard r c playerWhoMoved).length then
    (if moverIsP1 currentTurnBase playerWhoMoved then basep1
     else basep1 + (explodedOf newBoard r c playerWhoMoved).length)
  else basep1

/-- Player 2's score after the explosion step of `processTurn`. -/
def scoreP2After (newBoard : Board) (r c playerWhoMoved : Int)
    (basep2 : Nat) (currentTurnBase : Nat) : Nat :=
  if 0 < (explodedOf newBoard r c playerWhoMoved).length then
    (if moverIsP1 currentTurnBase playerWhoMoved then
       basep2 + (explodedOf newBoard r c playerWhoMoved).length
     else basep2)
  else basep2

/-- The board after the explosion step of `processTurn`: exploded cells reset
to `EMPTY`, otherwise the board is left as placed. -/
def boardAfter (newBoard : Board) (r c playerWhoMoved : Int) : Board :=
  if 0 < (explodedOf newBoard r c playerWhoMoved).length then
    clearCells newBoard (explodedOf newBoard r c playerWhoMoved)
  else newBoard

/-- Observable controller state touched by `processTurn` (the React state
variables `board`, `scores`, `turnCount`, `currentPlayer`, `humanColor`,
`isGameOver` and `finalResult`).  `humanColor` is Player 1's current stone
color. -/
structure GameState where
  board : Board
  p1Score : Nat
  p2Score : Nat
  turnCount : Nat
  currentPlayer : Int
  humanColor : Int
  isGameOver : Bool
  finalResult : Option (Who × Why)

/-- Embedding of `processTurn(newBoard, r, c, playerWhoMoved,
currentHumanColor, baseScores, currentTurnBase)` from `src/index.tsx`:
explosion scoring with swap-cycle seat attribution, then the dominant-win
checks, then the board-full check (each returning early, leaving the turn
counter, mover and seat mapping untouched), then turn increment, the 30-turn
seat/color flip, and handing the move to the opposite color. -/
def processTurn (newBoard : Board) (r c playerWhoMoved currentHumanColor : Int)
    (basep1 basep2 : Nat) (currentTurnBase : Nat) : GameState :=
  if 200 ≤ scoreP1After newBoard r c playerWhoMoved basep1 currentTurnBase ∧
      scoreP2After newBoard r c playerWhoMoved basep2 currentTurnBase + 100 ≤
        scoreP1After newBoard r c playerWhoMoved basep1 currentTurnBase then
    ⟨boardAfter newBoard r c playerWhoMoved,
      scoreP1After newBoard r c playerWhoMoved basep1 currentTurnBase,
      scoreP2After newBoard r c playerWhoMoved basep2 currentTurnBase,
      currentTurnBase, playerWhoMoved, currentHumanColor,
      true, some (Who.p1, Why.dominantWin)⟩
  else if 200 ≤ scoreP2After newBoard r c playerWhoMoved basep2 currentTurnBase ∧
      scoreP1After newBoard r c playerWhoMoved basep1 currentTurnBase + 100 ≤
        scoreP2After newBoard r c playerWhoMoved basep2 currentTurnBase then
    ⟨boardAfter newBoard r c playerWhoMoved,
      scoreP1After newBoard r c playerWhoMoved basep1 currentTurnBase,
      scoreP2After newBoard r c playerWhoMoved basep2 currentTurnBase,
      currentTurnBase, playerWhoMoved, currentHumanColor,
      true, some (Who.p2, Why.dominantWin)⟩
  else if isBoardFull (boardAfter newBoard r c playerWhoMoved) then
    ⟨boardAfter newBoard r c playerWhoMoved,
      scoreP1After newBoard r c playerWhoMoved basep1 currentTurnBase,
      scoreP2After newBoard r c playerWhoMoved basep2 currentTurnBase,
      currentTurnBase, playerWhoMoved, currentHumanColor,
      true, some (getGameResult
        (scoreP1After newBoard r c playerWhoMoved basep1 currentTurnBase)
        (scoreP2After newBoard r c playerWhoMoved basep2 currentTurnBase)
        (boardAfter newBoard r c playerWhoMoved) currentHumanColor)⟩
  else
    ⟨boardAfter newBoard r c playerWhoMoved,
      scoreP1After newBoard r c playerWhoMoved basep1 currentTurnBase,
      scoreP2After newBoard r c playerWhoMoved basep2 currentTurnBase,
      currentTurnBase + 1,
      (if playerWhoMoved = PLAYER_BLACK then PLAYER_WHITE else PLAYER_BLACK),
      (if 0 < currentTurnBase + 1 ∧ (currentTurnBase + 1) % 30 = 0 then
         (if currentHumanColor = PLAYER_BLACK then PLAYER_WHITE else PLAYER_BLACK)
       else currentHumanColor),
      false, none⟩

/-- Embedding of the remote-move application (`handleRemoteMove` feeding the
`lastRemoteMove` effect): if the target cell is still empty, the move is
applied through the same `processTurn` path using the color currently due to
move; otherwise the message is dropped and the state is untouched.  (For a
row index outside the board the JavaScript read would throw; remote moves
originate from the peer's own click handler and are in bounds.) -/
def handleRemoteMove (s : GameState) (r c : Int) : GameState :=
  if inBoard r c ∧ s.board r c = EMPTY then
    processTurn (setCell s.board r c s.currentPlayer) r c s.currentPlayer
      s.humanColor s.p1Score s.p2Score s.turnCount
  else s

/-- Initial session state (`resetGame`): empty board, zero scores, turn
counter 0, Black to move, Player 1 holding Black. -/
def initialState : GameState :=
  ⟨fun _ _ => EMPTY, 0, 0, 0, PLAYER_BLACK, PLAYER_BLACK, false, none⟩

/-- States reachable by legal applied moves (`handleCellClick` and the AI/
remote paths all place the current player's stone on an empty in-bounds cell
of a non-terminal session and run `processTurn`). -/
inductive Reachable : GameState → Prop
  | init : Reachable initialState
  | step (s : GameState) (r c : Int) :
      Reachable s →
      s.isGameOver = false →
      inBoard r c →
      s.board r c = EMPTY →
      Reachable (processTurn (setCell s.board r c s.currentPlayer) r c
        s.currentPlayer s.humanColor s.p1Score s.p2Score s.turnCount)

/-- Specification-side seat/color mapping: the color Seat 1 (Player 1) holds
at a given turn counter, per the `floor(turnCounter / 30) mod 2` rule. -/
def seat1Color (turnCounter : Nat) : Int :=
  if (turnCounter / 30) % 2 = 0 then PLAYER_BLACK else PLAYER_WHITE

/-- Concrete board used as a test fixture: Black stones on row 7, columns 0–4
(the fifth stone just placed at `(7, 4)`). -/
def cbW : Board := fun r c => if r = 7 ∧ 0 ≤ c ∧ c ≤ 4 then 1 else 0

/-- Concrete board used as a test fixture: White stones on row 7, columns 0–4
(the fifth stone just placed at `(7, 4)`). -/
def cb5 : Board := fun r c => if r = 7 ∧ 0 ≤ c ∧ c ≤ 4 then 2 else 0

/-- Concrete board used as a test fixture: every cell occupied by Black. -/
def fullB : Board := fun _ _ => 1

/-- Concrete board used as a test fixture: the empty board. -/
def emptyB : Board := fun _ _ => 0

/-- Concrete board used as a test fixture: a single White stone at `(0, 0)`. -/
def oneStoneB : Board := fun r c => if r = 0 ∧ c = 0 then 2 else 0

/-- Concrete board used as a test fixture: a single Black stone at `(0, 1)`,
next to the left edge. -/
def edgeB : Board := fun r c => if r = 0 ∧ c = 1 then 1 else 0

/-- Concrete board used as a test fixture: full board holding one Black stone
at `(0, 0)` (just placed) and White stones everywhere else. -/
def fullMixedB : Board := fun r c => if r = 0 ∧ c = 0 then 1 else 2

/-- Zero tie-break jitter (a value `Math.random()` can produce). -/
def zeroJit : Nat → Int := fun _ => 0

/-- Concrete controller state used as a test fixture: the five-stone board
`cbW` with Black to move. -/
def stateW : GameState := ⟨cbW, 0, 0, 0, PLAYER_BLACK, PLAYER_BLACK, false, none⟩

lemma mem_dedupFirstAux (l : List (Int × Int)) :
    ∀ (seen : List (Int × Int)) (x : Int × Int),
      x ∈ dedupFirstAux seen l ↔ x ∈ l ∧ x ∉ seen := by
  induction l with
  | nil => intro seen x; simp [dedupFirstAux]
  | cons y ys ih =>
    intro seen x
    by_cases hy : y ∈ seen
    · rw [dedupFirstAux, if_pos hy, ih]
      constructor
      · rintro ⟨hx, hns⟩
        exact ⟨List.mem_cons_of_mem _ hx, hns⟩
      · rintro ⟨hx, hns⟩
        rcases List.mem_cons.mp hx with h | h
        · exact absurd (h ▸ hy) hns
        · exact ⟨h, hns⟩
    · rw [dedupFirstAux, if_neg hy]
      constructor
      · intro hx
        rcases List.mem_cons.mp hx with h | h
        · subst h
          exact ⟨List.mem_cons_self _ _, hy⟩
        · have h2 := (ih _ _).mp h
          refine ⟨List.mem_cons_of_mem _ h2.1, ?_⟩
          intro hxs
          exact h2.2 (List.mem_cons_of_mem _ hxs)
      · rintro ⟨hx, hns⟩
        rcases List.mem_cons.mp hx with h | h
        · subst h
          exact List.mem_cons_self _ _
        · by_cases hxy : x = y
          · subst hxy
            exact List.mem_cons_self _ _
          · refine List.mem_cons_of_mem _ ((ih _ _).mpr ⟨h, ?_⟩)
            intro hmem
            exact (List.mem_cons.mp hmem).elim hxy hns

lemma mem_dedupFirst (l : List (Int × Int)) (x : Int × Int) :
    x ∈ dedupFirst l ↔ x ∈ l := by
  rw [dedupFirst, mem_dedupFirstAux]
  simp

lemma nodup_dedupFirstAux (l : List (Int × Int)) :
    ∀ seen : List (Int × Int), (dedupFirstAux seen l).Nodup := by
  induction l with
  | nil => intro seen; simp [dedupFirstAux]
  | cons y ys ih =>
    intro seen
    by_cases hy : y ∈ seen
    · rw [dedupFirstAux, if_pos hy]
      exact ih seen
    · rw [dedupFirstAux, if_neg hy]
      refine List.nodup_cons.mpr ⟨?_, ih _⟩
      intro hmem
      exact ((mem_dedupFirstAux ys _ y).mp hmem).2 (List.mem_cons_self _ _)

lemma nodup_dedupFirst (l : List (Int × Int)) : (dedupFirst l).Nodup :=
  nodup_dedupFirstAux l []

lemma dedupFirst_eq_nil (l : List (Int × Int)) :
    dedupFirst l = [] ↔ l = [] := by
  cases l with
  | nil => simp [dedupFirst, dedupFirstAux]
  | cons y ys =>
    simp only [dedupFirst, dedupFirstAux, List.not_mem_nil, if_neg (List.not_mem_nil y)]
    constructor
    · intro h
      exact absurd h (List.cons_ne_nil _ _)
    · intro h
      exact absurd h (List.cons_ne_nil _ _)

lemma walk_prefix_cellIs (board : Board) (player dx dy : Int) :
    ∀ (n : Nat) (r c : Int) (i : Nat), i < (walk board player r c dx dy n).length →
      cellIs board player (r + dx * i) (c + dy * i) = true := by
  intro n
  induction n with
  | zero =>
    intro r c i h
    simp [walk] at h
  | succ m ih =>
    intro r c i h
    rw [walk] at h
    by_cases hc : cellIs board player r c = true
    · rw [if_pos hc] at h
      cases i with
      | zero => simpa using hc
      | succ j =>
        simp only [List.length_cons] at h
        have h2 := ih (r + dx) (c + dy) j (Nat.lt_of_succ_lt_succ h)
        have e1 : r + dx + dx * (j : Int) = r + dx * ((j + 1 : Nat) : Int) := by
          push_cast
          ring
        have e2 : c + dy + dy * (j : Int) = c + dy * ((j + 1 : Nat) : Int) := by
          push_cast
          ring
        rw [e1, e2] at h2
        exact h2
    · rw [if_neg hc] at h
      simp at h

lemma walk_length_ge (board : Board) (player dx dy : Int) :
    ∀ (n : Nat) (r c : Int) (m : Nat),
      (∀ i : Nat, i ≤ m → cellIs board player (r + dx * i) (c + dy * i) = true) →
      m < n → m < (walk board player r c dx dy n).length := by
  intro n
  induction n with
  | zero =>
    intro r c m _ h
    omega
  | succ k ih =>
    intro r c m hall hm
    have h0 : cellIs board player r c = true := by
      have := hall 0 (Nat.zero_le _)
      simpa using this
    rw [walk, if_pos h0]
    cases m with
    | zero => simp
    | succ j =>
      simp only [List.length_cons]
      have hj : j < (walk board player (r + dx) (c + dy) dx dy k).length := by
        apply ih
        · intro i hi
          have h2 := hall (i + 1) (by omega)
          have e1 : r + dx * ((i + 1 : Nat) : Int) = r + dx + dx * (i : Int) := by
            push_cast
            ring
          have e2 : c + dy * ((i + 1 : Nat) : Int) = c + dy + dy * (i : Int) := by
            push_cast
            ring
          rw [e1, e2] at h2
          exact h2
        · omega
      omega

lemma walk_eq_map (board : Board) (player dx dy : Int) :
    ∀ (n : Nat) (r c : Int),
      walk board player r c dx dy n =
        (List.range (walk board player r c dx dy n).length).map
          (fun i : Nat => (r + dx * (i : Int), c + dy * (i : Int))) := by
  intro n
  induction n with
  | zero =>
    intro r c
    simp [walk]
  | succ k ih =>
    intro r c
    by_cases hc : cellIs board player r c = true
    · rw [walk, if_pos hc]
      simp only [List.length_cons, List.range_succ_eq_map, List.map_cons, List.map_map]
      have hhead : (r + dx * ((0 : Nat) : Int), c + dy * ((0 : Nat) : Int)) = (r, c) := by
        simp
      rw [hhead]
      congr 1
      rw [ih (r + dx) (c + dy)]
      simp only [List.length_map, List.length_range]
      apply List.map_congr_left
      intro i _
      simp only [Function.comp_apply, Prod.mk.injEq]
      refine ⟨by push_cast; ring, by push_cast; ring⟩
    · rw [walk, if_neg hc]
      simp

lemma mem_walk (board : Board) (player dx dy : Int) (n : Nat) (r c : Int) (x : Int × Int) :
    x ∈ walk board player r c dx dy n ↔
      ∃ i : Nat, i < (walk board player r c dx dy n).length ∧
        x = (r + dx * (i : Int), c + dy * (i : Int)) := by
  conv_lhs => rw [walk_eq_map]
  simp only [List.mem_map, List.mem_range]
  constructor
  · rintro ⟨i, hi, hx⟩
    exact ⟨i, hi, hx.symm⟩
  · rintro ⟨i, hi, hx⟩
    exact ⟨i, hi, hx.symm⟩

lemma cellIs_elim {board : Board} {player r c : Int} (h : cellIs board player r c = true) :
    inBoard r c ∧ board r c = player :=
  of_decide_eq_true h

lemma direction_offset_bound {dx dy : Int} (hd : (dx, dy) ∈ directions)
    {board : Board} {player r c j : Int}
    (h0 : cellIs board player r c = true)
    (hj : cellIs board player (r + dx * j) (c + dy * j) = true) :
    -14 ≤ j ∧ j ≤ 14 := by
  have hb0 := (cellIs_elim h0).1
  have hbj := (cellIs_elim hj).1
  unfold inBoard at hb0 hbj
  simp only [directions, List.mem_cons, List.not_mem_nil, or_false, Prod.mk.injEq] at hd
  rcases hd with ⟨h1, h2⟩ | ⟨h1, h2⟩ | ⟨h1, h2⟩ | ⟨h1, h2⟩ <;> subst h1 <;> subst h2 <;> omega

lemma walked_segColored (board : Board) (player r c dx dy : Int)
    (h0 : cellIs board player r c = true) :
    segColored board player r c dx dy
      (-((bwdCells board player r c dx dy).length : Int))
      ((fwdCells board player r c dx dy).length : Int) := by
  intro j hja hje
  rcases lt_trichotomy j 0 with hneg | hzero | hpos
  · have hi : ((-j).toNat - 1) < (bwdCells board player r c dx dy).length := by omega
    have h2 := walk_prefix_cellIs board player (-dx) (-dy) 15 (r - dx) (c - dy)
      ((-j).toNat - 1) hi
    have hcast : ((((-j).toNat - 1 : Nat)) : Int) = -j - 1 := by omega
    have e1 : r - dx + -dx * ((((-j).toNat - 1 : Nat)) : Int) = r + dx * j := by
      rw [hcast]
      ring
    have e2 : c - dy + -dy * ((((-j).toNat - 1 : Nat)) : Int) = c + dy * j := by
      rw [hcast]
      ring
    rw [e1, e2] at h2
    exact h2
  · subst hzero
    simpa using h0
  · have hi : (j.toNat - 1) < (fwdCells board player r c dx dy).length := by omega
    have h2 := walk_prefix_cellIs board player dx dy 15 (r + dx) (c + dy)
      (j.toNat - 1) hi
    have hcast : (((j.toNat - 1 : Nat)) : Int) = j - 1 := by omega
    have e1 : r + dx + dx * (((j.toNat - 1 : Nat)) : Int) = r + dx * j := by
      rw [hcast]
      ring
    have e2 : c + dy + dy * (((j.toNat - 1 : Nat)) : Int) = c + dy * j := by
      rw [hcast]
      ring
    rw [e1, e2] at h2
    exact h2

lemma walked_covers (board : Board) (player r c dx dy : Int) (hd : (dx, dy) ∈ directions)
    (h0 : cellIs board player r c = true) (a e : Int)
    (ha : a ≤ 0) (he : 0 ≤ e)
    (hseg : segColored board player r c dx dy a e) :
    e.toNat ≤ (fwdCells board player r c dx dy).length ∧
    (-a).toNat ≤ (bwdCells board player r c dx dy).length := by
  constructor
  · rcases Nat.eq_zero_or_pos e.toNat with h | h
    · omega
    · have hbound : e ≤ 14 :=
        (direction_offset_bound hd h0 (hseg e (by omega) le_rfl)).2
      have hlt := walk_length_ge board player dx dy 15 (r + dx) (c + dy) (e.toNat - 1)
        (by
          intro i hi
          have h2 := hseg ((i : Int) + 1) (by omega) (by omega)
          have e1 : r + dx * ((i : Int) + 1) = r + dx + dx * (i : Int) := by ring
          have e2 : c + dy * ((i : Int) + 1) = c + dy + dy * (i : Int) := by ring
          rw [e1, e2] at h2
          exact h2)
        (by omega)
      unfold fwdCells
      omega
  · rcases Nat.eq_zero_or_pos (-a).toNat with h | h
    · omega
    · have hbound : -14 ≤ a :=
        (direction_offset_bound hd h0 (hseg a le_rfl (by omega))).1
      have hlt := walk_length_ge board player (-dx) (-dy) 15 (r - dx) (c - dy) ((-a).toNat - 1)
        (by
          intro i hi
          have h2 := hseg (-((i : Int) + 1)) (by omega) (by omega)
          have e1 : r + dx * (-((i : Int) + 1)) = r - dx + -dx * (i : Int) := by ring
          have e2 : c + dy * (-((i : Int) + 1)) = c - dy + -dy * (i : Int) := by ring
          rw [e1, e2] at h2
          exact h2)
        (by omega)
      unfold bwdCells
      omega

lemma dirCount_iff_runThru (board : Board) (player r c dx dy : Int)
    (hd : (dx, dy) ∈ directions) (h0 : cellIs board player r c = true) :
    5 ≤ dirCount board player r c dx dy ↔ runThru board player r c dx dy := by
  constructor
  · intro h5
    unfold dirCount at h5
    exact ⟨-((bwdCells board player r c dx dy).length : Int),
      ((fwdCells board player r c dx dy).length : Int),
      by omega, by omega, by omega, walked_segColored board player r c dx dy h0⟩
  · rintro ⟨a, e, ha, he, hspan, hseg⟩
    have hc := walked_covers board player r c dx dy hd h0 a e ha he hseg
    unfold dirCount
    omega

lemma mem_allStonesOf (board : Board) (lastRow lastCol player : Int) (x : Int × Int) :
    x ∈ allStonesOf board lastRow lastCol player ↔
      ∃ d ∈ directions, 5 ≤ dirCount board player lastRow lastCol d.1 d.2 ∧
        x ∈ dirLineCells board player lastRow lastCol d.1 d.2 := by
  unfold allStonesOf
  rw [List.mem_flatMap]
  constructor
  · rintro ⟨d, hd, hx⟩
    by_cases h5 : 5 ≤ dirCount board player lastRow lastCol d.1 d.2
    · rw [if_pos h5] at hx
      exact ⟨d, hd, h5, hx⟩
    · rw [if_neg h5] at hx
      simp at hx
  · rintro ⟨d, hd, h5, hx⟩
    refine ⟨d, hd, ?_⟩
    rw [if_pos h5]
    exact hx

lemma checkLongLines_eq_none_iff (board : Board) (lastRow lastCol player : Int) :
    checkLongLines board lastRow lastCol player = none ↔
      allStonesOf board lastRow lastCol player = [] := by
  simp only [checkLongLines]
  by_cases h : 0 < (dedupFirst (allStonesOf board lastRow lastCol player)).length
  · rw [if_pos h]
    simp only [reduceCtorEq, false_iff]
    intro hnil
    rw [hnil] at h
    simp [dedupFirst, dedupFirstAux] at h
  · rw [if_neg h]
    simp only [true_iff]
    have hlen : (dedupFirst (allStonesOf board lastRow lastCol player)).length = 0 := by omega
    exact (dedupFirst_eq_nil _).mp (List.length_eq_zero.mp hlen)

lemma checkLongLines_eq_some_iff (board : Board) (lastRow lastCol player : Int)
    (l : List (Int × Int)) :
    checkLongLines board lastRow lastCol player = some l ↔
      (allStonesOf board lastRow lastCol player ≠ [] ∧
        l = dedupFirst (allStonesOf board lastRow lastCol player)) := by
  simp only [checkLongLines]
  by_cases h : 0 < (dedupFirst (allStonesOf board lastRow lastCol player)).length
  · rw [if_pos h]
    simp only [Option.some.injEq]
    constructor
    · intro he
      refine ⟨?_, he.symm⟩
      intro hnil
      rw [hnil] at h
      simp [dedupFirst, dedupFirstAux] at h
    · intro he
      exact he.2.symm
  · rw [if_neg h]
    simp only [reduceCtorEq, false_iff, not_and]
    intro hne
    exact absurd ((dedupFirst_eq_nil _).mp (List.length_eq_zero.mp (by omega))) hne

lemma checkLongLines_some_pos (board : Board) (lastRow lastCol player : Int)
    (l : List (Int × Int)) (h : checkLongLines board lastRow lastCol player = some l) :
    0 < l.length := by
  obtain ⟨hne, hl⟩ := (checkLongLines_eq_some_iff board lastRow lastCol player l).mp h
  subst hl
  have : (r : Int × Int) → r ∈ allStonesOf board lastRow lastCol player →
      r ∈ dedupFirst (allStonesOf board lastRow lastCol player) := by
    intro r hr
    exact (mem_dedupFirst _ _).mpr hr
  rcases List.exists_mem_of_ne_nil _ hne with ⟨y, hy⟩
  exact List.length_pos.mpr (List.ne_nil_of_mem (this y hy))

lemma mem_dirLineCells_offset (board : Board) (player r c dx dy : Int) (x : Int × Int)
    (hx : x ∈ dirLineCells board player r c dx dy) :
    ∃ j : Int, -((bwdCells board player r c dx dy).length : Int) ≤ j ∧
      j ≤ ((fwdCells board player r c dx dy).length : Int) ∧
      x = (r + dx * j, c + dy * j) := by
  rcases List.mem_cons.mp hx with h | h
  · refine ⟨0, by omega, by omega, ?_⟩
    rw [h]
    simp
  · rcases List.mem_append.mp h with h | h
    · obtain ⟨i, hi, hxi⟩ := (mem_walk board player dx dy 15 (r + dx) (c + dy) x).mp h
      refine ⟨(i : Int) + 1, by omega, ?_, ?_⟩
      · unfold fwdCells
        omega
      · rw [hxi]
        simp only [Prod.mk.injEq]
        refine ⟨by ring, by ring⟩
    · obtain ⟨i, hi, hxi⟩ := (mem_walk board player (-dx) (-dy) 15 (r - dx) (c - dy) x).mp h
      refine ⟨-((i : Int) + 1), ?_, by omega, ?_⟩
      · unfold bwdCells
        omega
      · rw [hxi]
        simp only [Prod.mk.injEq]
        refine ⟨by ring, by ring⟩

lemma offset_mem_dirLineCells (board : Board) (player r c dx dy : Int)
    (hd : (dx, dy) ∈ directions) (h0 : cellIs board player r c = true)
    (a e : Int) (ha : a ≤ 0) (he : 0 ≤ e)
    (hseg : segColored board player r c dx dy a e)
    (j : Int) (hja : a ≤ j) (hje : j ≤ e) :
    (r + dx * j, c + dy * j) ∈ dirLineCells board player r c dx dy := by
  have hcov := walked_covers board player r c dx dy hd h0 a e ha he hseg
  rcases lt_trichotomy j 0 with hneg | hzero | hpos
  · refine List.mem_cons_of_mem _ (List.mem_append.mpr (Or.inr ?_))
    refine (mem_walk board player (-dx) (-dy) 15 (r - dx) (c - dy) _).mpr
      ⟨(-j).toNat - 1, ?_, ?_⟩
    · unfold bwdCells at hcov
      omega
    · have hcast : ((((-j).toNat - 1 : Nat)) : Int) = -j - 1 := by omega
      simp only [Prod.mk.injEq]
      rw [hcast]
      refine ⟨by ring, by ring⟩
  · subst hzero
    simp only [mul_zero, add_zero]
    exact List.mem_cons_self _ _
  · refine List.mem_cons_of_mem _ (List.mem_append.mpr (Or.inl ?_))
    refine (mem_walk board player dx dy 15 (r + dx) (c + dy) _).mpr
      ⟨j.toNat - 1, ?_, ?_⟩
    · unfold fwdCells at hcov
      omega
    · have hcast : (((j.toNat - 1 : Nat)) : Int) = j - 1 := by omega
      simp only [Prod.mk.injEq]
      rw [hcast]
      refine ⟨by ring, by ring⟩

/-- Claim C1: for every board, placement cell and color (the placement cell holding
the placed color, as it does after any placement), `checkLongLines` returns
`none` exactly when no axis direction has a contiguous same-color run of
length ≥ 5 through the placement cell; otherwise it returns a deduplicated
set of coordinates in which every coordinate holds that color and lies on
such a run through the placement cell, the set includes the originating cell,
and every qualifying run is included in full (runs longer than 5 are not
truncated). -/
theorem checkLongLines_correct (board : Board) (r c player : Int)
    (hp : cellIs board player r c = true) :
    (checkLongLines board r c player = none ↔
      ∀ d ∈ directions, ¬ runThru board player r c d.1 d.2) ∧
    (∀ l, checkLongLines board r c player = some l →
      l.Nodup ∧ (r, c) ∈ l ∧
      (∀ x ∈ l, cellIs board player x.1 x.2 = true ∧
        ∃ d ∈ directions, ∃ a e j : Int, a ≤ 0 ∧ 0 ≤ e ∧ 4 ≤ e - a ∧
          segColored board player r c d.1 d.2 a e ∧
          a ≤ j ∧ j ≤ e ∧ x = (r + d.1 * j, c + d.2 * j)) ∧
      (∀ d ∈ directions, ∀ a e : Int, a ≤ 0 → 0 ≤ e → 4 ≤ e - a →
        segColored board player r c d.1 d.2 a e →
        ∀ j : Int, a ≤ j → j ≤ e → (r + d.1 * j, c + d.2 * j) ∈ l)) := by
  constructor
  · rw [checkLongLines_eq_none_iff, List.eq_nil_iff_forall_not_mem]
    constructor
    · intro h d hd hrun
      rcases d with ⟨dx, dy⟩
      have h5 := (dirCount_iff_runThru board player r c dx dy hd hp).mpr hrun
      exact h (r, c) ((mem_allStonesOf board r c player (r, c)).mpr
        ⟨(dx, dy), hd, h5, List.mem_cons_self _ _⟩)
    · intro h x hx
      obtain ⟨d, hd, h5, _⟩ := (mem_allStonesOf board r c player x).mp hx
      rcases d with ⟨dx, dy⟩
      exact h (dx, dy) hd ((dirCount_iff_runThru board player r c dx dy hd hp).mp h5)
  · intro l hl
    obtain ⟨hne, hleq⟩ := (checkLongLines_eq_some_iff board r c player l).mp hl
    subst hleq
    refine ⟨nodup_dedupFirst _, ?_, ?_, ?_⟩
    · rcases List.exists_mem_of_ne_nil _ hne with ⟨y, hy⟩
      obtain ⟨d, hd, h5, _⟩ := (mem_allStonesOf board r c player y).mp hy
      exact (mem_dedupFirst _ _).mpr ((mem_allStonesOf board r c player (r, c)).mpr
        ⟨d, hd, h5, List.mem_cons_self _ _⟩)
    · intro x hx
      obtain ⟨d, hd, h5, hxin⟩ := (mem_allStonesOf board r c player x).mp
        ((mem_dedupFirst _ _).mp hx)
      rcases d with ⟨dx, dy⟩
      obtain ⟨j, hja, hje, hxeq⟩ := mem_dirLineCells_offset board player r c dx dy x hxin
      have hseg := walked_segColored board player r c dx dy hp
      have hcell : cellIs board player (r + dx * j) (c + dy * j) = true := hseg j hja hje
      dsimp only at h5
      unfold dirCount at h5
      refine ⟨by rw [hxeq]; exact hcell, (dx, dy), hd,
        -((bwdCells board player r c dx dy).length : Int),
        ((fwdCells board player r c dx dy).length : Int), j,
        by omega, by omega, by omega, hseg, hja, hje, hxeq⟩
    · intro d hd a e ha he hspan hseg j hja hje
      rcases d with ⟨dx, dy⟩
      have h5 := (dirCount_iff_runThru board player r c dx dy hd hp).mpr
        ⟨a, e, ha, he, hspan, hseg⟩
      exact (mem_dedupFirst _ _).mpr ((mem_allStonesOf board r c player _).mpr
        ⟨(dx, dy), hd, h5,
          offset_mem_dirLineCells board player r c dx dy hd hp a e ha he hseg j hja hje⟩)

/-- Witness for claim C1: on the concrete board `cbW` (Black
stones at row 7, columns 0–4, the fifth just placed at `(7, 4)`) the theorem
applies and yields that the originating cell belongs to the removal set
computed by `checkLongLines`. -/
theorem checkLongLines_correct_witness :
    ((7 : Int), (4 : Int)) ∈ [((7 : Int), (4 : Int)), (7, 3), (7, 2), (7, 1), (7, 0)] := by
  have h := checkLongLines_correct cbW 7 4 1 (by decide)
  have h2 := h.2 [(7, 4), (7, 3), (7, 2), (7, 1), (7, 0)] (by decide)
  exact h2.2.1


lemma processTurn_cases (newBoard : Board) (r c playerWhoMoved currentHumanColor : Int)
    (basep1 basep2 currentTurnBase : Nat) (P : GameState → Prop)
    (hdom1 : 200 ≤ scoreP1After newBoard r c playerWhoMoved basep1 currentTurnBase ∧
        scoreP2After newBoard r c playerWhoMoved basep2 currentTurnBase + 100 ≤
          scoreP1After newBoard r c playerWhoMoved basep1 currentTurnBase →
      P ⟨boardAfter newBoard r c playerWhoMoved,
        scoreP1After newBoard r c playerWhoMoved basep1 currentTurnBase,
        scoreP2After newBoard r c playerWhoMoved basep2 currentTurnBase,
        currentTurnBase, playerWhoMoved, currentHumanColor,
        true, some (Who.p1, Why.dominantWin)⟩)
    (hdom2 : ¬(200 ≤ scoreP1After newBoard r c playerWhoMoved basep1 currentTurnBase ∧
        scoreP2After newBoard r c playerWhoMoved basep2 currentTurnBase + 100 ≤
          scoreP1After newBoard r c playerWhoMoved basep1 currentTurnBase) →
      200 ≤ scoreP2After newBoard r c playerWhoMoved basep2 currentTurnBase ∧
        scoreP1After newBoard r c playerWhoMoved basep1 currentTurnBase + 100 ≤
          scoreP2After newBoard r c playerWhoMoved basep2 currentTurnBase →
      P ⟨boardAfter newBoard r c playerWhoMoved,
        scoreP1After newBoard r c playerWhoMoved basep1 currentTurnBase,
        scoreP2After newBoard r c playerWhoMoved basep2 currentTurnBase,
        currentTurnBase, playerWhoMoved, currentHumanColor,
        true, some (Who.p2, Why.dominantWin)⟩)
    (hfull : ¬(200 ≤ scoreP1After newBoard r c playerWhoMoved basep1 currentTurnBase ∧
        scoreP2After newBoard r c playerWhoMoved basep2 currentTurnBase + 100 ≤
          scoreP1After newBoard r c playerWhoMoved basep1 currentTurnBase) →
      ¬(200 ≤ scoreP2After newBoard r c playerWhoMoved basep2 currentTurnBase ∧
        scoreP1After newBoard r c playerWhoMoved basep1 currentTurnBase + 100 ≤
          scoreP2After newBoard r c playerWhoMoved basep2 currentTurnBase) →
      isBoardFull (boardAfter newBoard r c playerWhoMoved) = true →
      P ⟨boardAfter newBoard r c playerWhoMoved,
        scoreP1After newBoard r c playerWhoMoved basep1 currentTurnBase,
        scoreP2After newBoard r c playerWhoMoved basep2 currentTurnBase,
        currentTurnBase, playerWhoMoved, currentHumanColor,
        true, some (getGameResult
          (scoreP1After newBoard r c playerWhoMoved basep1 currentTurnBase)
          (scoreP2After newBoard r c playerWhoMoved basep2 currentTurnBase)
          (boardAfter newBoard r c playerWhoMoved) currentHumanColor)⟩)
    (hnext : ¬(200 ≤ scoreP1After newBoard r c playerWhoMoved basep1 currentTurnBase ∧
        scoreP2After newBoard r c playerWhoMoved basep2 currentTurnBase + 100 ≤
          scoreP1After newBoard r c playerWhoMoved basep1 currentTurnBase) →
      ¬(200 ≤ scoreP2After newBoard r c playerWhoMoved basep2 currentTurnBase ∧
        scoreP1After newBoard r c playerWhoMoved basep1 currentTurnBase + 100 ≤
          scoreP2After newBoard r c playerWhoMoved basep2 currentTurnBase) →
      ¬(isBoardFull (boardAfter newBoard r c playerWhoMoved) = true) →
      P ⟨boardAfter newBoard r c playerWhoMoved,
        scoreP1After newBoard r c playerWhoMoved basep1 currentTurnBase,
        scoreP2After newBoard r c playerWhoMoved basep2 currentTurnBase,
        currentTurnBase + 1,
        (if playerWhoMoved = PLAYER_BLACK then PLAYER_WHITE else PLAYER_BLACK),
        (if 0 < currentTurnBase + 1 ∧ (currentTurnBase + 1) % 30 = 0 then
           (if currentHumanColor = PLAYER_BLACK then PLAYER_WHITE else PLAYER_BLACK)
         else currentHumanColor),
        false, none⟩) :
    P (processTurn newBoard r c playerWhoMoved currentHumanColor basep1 basep2
        currentTurnBase) := by
  unfold processTurn
  by_cases h1 : (200 ≤ scoreP1After newBoard r c playerWhoMoved basep1 currentTurnBase ∧
      scoreP2After newBoard r c playerWhoMoved basep2 currentTurnBase + 100 ≤
        scoreP1After newBoard r c playerWhoMoved basep1 currentTurnBase)
  · rw [if_pos h1]
    exact hdom1 h1
  · rw [if_neg h1]
    by_cases h2 : (200 ≤ scoreP2After newBoard r c playerWhoMoved basep2 currentTurnBase ∧
        scoreP1After newBoard r c playerWhoMoved basep1 currentTurnBase + 100 ≤
          scoreP2After newBoard r c playerWhoMoved basep2 currentTurnBase)
    · rw [if_pos h2]
      exact hdom2 h1 h2
    · rw [if_neg h2]
      by_cases h3 : isBoardFull (boardAfter newBoard r c playerWhoMoved) = true
      · rw [if_pos h3]
        exact hfull h1 h2 h3
      · rw [if_neg h3]
        exact hnext h1 h2 h3

lemma processTurn_p1Score (newBoard : Board) (r c playerWhoMoved currentHumanColor : Int)
    (basep1 basep2 currentTurnBase : Nat) :
    (processTurn newBoard r c playerWhoMoved currentHumanColor basep1 basep2
      currentTurnBase).p1Score =
        scoreP1After newBoard r c playerWhoMoved basep1 currentTurnBase := by
  refine processTurn_cases newBoard r c playerWhoMoved currentHumanColor basep1 basep2
    currentTurnBase
    (fun s => s.p1Score = scoreP1After newBoard r c playerWhoMoved basep1 currentTurnBase)
    ?_ ?_ ?_ ?_ <;> intros <;> with_reducible rfl

lemma processTurn_p2Score (newBoard : Board) (r c playerWhoMoved currentHumanColor : Int)
    (basep1 basep2 currentTurnBase : Nat) :
    (processTurn newBoard r c playerWhoMoved currentHumanColor basep1 basep2
      currentTurnBase).p2Score =
        scoreP2After newBoard r c playerWhoMoved basep2 currentTurnBase := by
  refine processTurn_cases newBoard r c playerWhoMoved currentHumanColor basep1 basep2
    currentTurnBase
    (fun s => s.p2Score = scoreP2After newBoard r c playerWhoMoved basep2 currentTurnBase)
    ?_ ?_ ?_ ?_ <;> intros <;> with_reducible rfl

lemma moverIsP1_iff (t : Nat) (mover : Int) :
    moverIsP1 t mover = true ↔ seat1Color t = mover := by
  unfold moverIsP1 seat1Color p1IsBlackAt PLAYER_BLACK PLAYER_WHITE
  by_cases h : (t / 30) % 2 = 0 <;> simp [h, eq_comm]

/-- Claim C2: when line detection returns a non-empty removal set of size `k`, the
seat that does not currently hold the mover's color (under the seat/color
mapping computed from the pre-increment turn counter) gains exactly `k`
points, and the moving seat's score is unchanged by this event. -/
theorem score_transfer_nonmover (newBoard : Board)
    (r c playerWhoMoved currentHumanColor : Int)
    (basep1 basep2 currentTurnBase : Nat) (l : List (Int × Int))
    (hexp : checkLongLines newBoard r c playerWhoMoved = some l) :
    (seat1Color currentTurnBase = playerWhoMoved →
      (processTurn newBoard r c playerWhoMoved currentHumanColor basep1 basep2
        currentTurnBase).p2Score = basep2 + l.length ∧
      (processTurn newBoard r c playerWhoMoved currentHumanColor basep1 basep2
        currentTurnBase).p1Score = basep1) ∧
    (seat1Color currentTurnBase ≠ playerWhoMoved →
      (processTurn newBoard r c playerWhoMoved currentHumanColor basep1 basep2
        currentTurnBase).p1Score = basep1 + l.length ∧
      (processTurn newBoard r c playerWhoMoved currentHumanColor basep1 basep2
        currentTurnBase).p2Score = basep2) := by
  have hpos := checkLongLines_some_pos newBoard r c playerWhoMoved l hexp
  have hexp2 : explodedOf newBoard r c playerWhoMoved = l := by
    unfold explodedOf
    rw [hexp]
    exact if_pos hpos
  rw [processTurn_p1Score, processTurn_p2Score]
  unfold scoreP1After scoreP2After
  rw [hexp2]
  constructor
  · intro hseat
    have hm : moverIsP1 currentTurnBase playerWhoMoved = true :=
      (moverIsP1_iff _ _).mpr hseat
    rw [if_pos hpos, if_pos hpos, if_pos hm, if_pos hm]
    exact ⟨rfl, rfl⟩
  · intro hseat
    have hm : ¬ moverIsP1 currentTurnBase playerWhoMoved = true :=
      fun h => hseat ((moverIsP1_iff _ _).mp h)
    rw [if_pos hpos, if_pos hpos, if_neg hm, if_neg hm]
    exact ⟨rfl, rfl⟩

/-- Witness for claim C2: on the concrete board `cbW`, Black
(held by Seat 1 at turn counter 0) explodes a line of five, so Seat 2 gains 5
points and Seat 1 none. -/
theorem score_transfer_nonmover_witness :
    (processTurn cbW 7 4 1 1 0 0 0).p2Score = 0 + 5 ∧
    (processTurn cbW 7 4 1 1 0 0 0).p1Score = 0 :=
  (score_transfer_nonmover cbW 7 4 1 1 0 0 0
    [(7, 4), (7, 3), (7, 2), (7, 1), (7, 0)] (by decide)).1 (by decide)

lemma reachable_humanColor (s : GameState) (hs : Reachable s) :
    s.humanColor = seat1Color s.turnCount := by
  induction hs with
  | init => decide
  | step s r c hr hng hin hemp ih =>
    refine processTurn_cases (setCell s.board r c s.currentPlayer) r c s.currentPlayer
      s.humanColor s.p1Score s.p2Score s.turnCount
      (fun st => st.humanColor = seat1Color st.turnCount) ?_ ?_ ?_ ?_
    · intro h
      exact ih
    · intro h h2
      exact ih
    · intro h h2 h3
      exact ih
    · intro h h2 h3
      dsimp only
      by_cases hflip : 0 < s.turnCount + 1 ∧ (s.turnCount + 1) % 30 = 0
      · rw [if_pos hflip]
        unfold seat1Color PLAYER_BLACK PLAYER_WHITE at ih ⊢
        by_cases ht : (s.turnCount / 30) % 2 = 0
        · rw [if_pos ht] at ih
          rw [if_pos ih, if_neg (by omega : ¬ ((s.turnCount + 1) / 30) % 2 = 0)]
        · rw [if_neg ht] at ih
          rw [if_neg (by omega : ¬ s.humanColor = 1),
            if_pos (by omega : ((s.turnCount + 1) / 30) % 2 = 0)]
      · rw [if_neg hflip]
        unfold seat1Color at ih ⊢
        have hdiv : (s.turnCount + 1) / 30 = s.turnCount / 30 := by omega
        rw [hdiv]
        exact ih

/-- Claim C3: in every reachable non-terminal state, Seat 1 holds the starting color
(Black) exactly when `floor(turnCounter / 30) mod 2 = 0` (equivalently, the
mapping equals `seat1Color turnCount`, independent of move history); and an
applied move that does not end the game flips the mapping exactly when the
incremented turn counter is a positive multiple of 30. -/
theorem seat_color_mapping :
    (∀ s : GameState, Reachable s → s.isGameOver = false →
      (s.humanColor = PLAYER_BLACK ↔ (s.turnCount / 30) % 2 = 0)) ∧
    (∀ (newBoard : Board) (r c playerWhoMoved currentHumanColor : Int)
      (basep1 basep2 : Nat) (currentTurnBase : Nat),
      (processTurn newBoard r c playerWhoMoved currentHumanColor basep1 basep2
        currentTurnBase).isGameOver = false →
      ((processTurn newBoard r c playerWhoMoved currentHumanColor basep1 basep2
        currentTurnBase).humanColor ≠ currentHumanColor ↔
        (0 < currentTurnBase + 1 ∧ (currentTurnBase + 1) % 30 = 0))) := by
  constructor
  · intro s hs hng
    have h := reachable_humanColor s hs
    rw [h]
    unfold seat1Color PLAYER_BLACK PLAYER_WHITE
    by_cases ht : (s.turnCount / 30) % 2 = 0
    · rw [if_pos ht]
      simp [ht]
    · rw [if_neg ht]
      simp [ht]
  · intro newBoard r c playerWhoMoved currentHumanColor basep1 basep2 currentTurnBase
    refine processTurn_cases newBoard r c playerWhoMoved currentHumanColor basep1 basep2
      currentTurnBase
      (fun st => st.isGameOver = false →
        (st.humanColor ≠ currentHumanColor ↔
          (0 < currentTurnBase + 1 ∧ (currentTurnBase + 1) % 30 = 0))) ?_ ?_ ?_ ?_
    · intro h hgo
      simp at hgo
    · intro h h2 hgo
      simp at hgo
    · intro h h2 h3 hgo
      simp at hgo
    · intro h h2 h3 hgo
      dsimp only
      constructor
      · intro hne
        by_contra hcond
        rw [if_neg hcond] at hne
        exact hne rfl
      · intro hcond
        rw [if_pos hcond]
        unfold PLAYER_BLACK PLAYER_WHITE
        by_cases hb : currentHumanColor = 1
        · rw [if_pos hb]
          omega
        · rw [if_neg hb]
          omega

/-- Witness for claim C3: the initial state is reachable
and non-terminal, and Seat 1 holds Black there (turn counter 0, cycle 0). -/
theorem seat_color_mapping_witness : initialState.humanColor = PLAYER_BLACK :=
  (seat_color_mapping.1 initialState Reachable.init rfl).mpr (by decide)

lemma getGameResult_not_dominant (p1Score p2Score : Nat) (finalBoard : Board)
    (currentHumanColor : Int) :
    (getGameResult p1Score p2Score finalBoard currentHumanColor).2 ≠ Why.dominantWin := by
  unfold getGameResult
  split_ifs <;> simp

lemma processTurn_dominant_spec (newBoard : Board) (r c playerWhoMoved currentHumanColor : Int)
    (basep1 basep2 currentTurnBase : Nat) :
    ((processTurn newBoard r c playerWhoMoved currentHumanColor basep1 basep2
        currentTurnBase).finalResult = some (Who.p1, Why.dominantWin) ↔
      (200 ≤ scoreP1After newBoard r c playerWhoMoved basep1 currentTurnBase ∧
        scoreP2After newBoard r c playerWhoMoved basep2 currentTurnBase + 100 ≤
          scoreP1After newBoard r c playerWhoMoved basep1 currentTurnBase)) ∧
    ((processTurn newBoard r c playerWhoMoved currentHumanColor basep1 basep2
        currentTurnBase).finalResult = some (Who.p2, Why.dominantWin) ↔
      (200 ≤ scoreP2After newBoard r c playerWhoMoved basep2 currentTurnBase ∧
        scoreP1After newBoard r c playerWhoMoved basep1 currentTurnBase + 100 ≤
          scoreP2After newBoard r c playerWhoMoved basep2 currentTurnBase)) ∧
    ((200 ≤ scoreP1After newBoard r c playerWhoMoved basep1 currentTurnBase ∧
        scoreP2After newBoard r c playerWhoMoved basep2 currentTurnBase + 100 ≤
          scoreP1After newBoard r c playerWhoMoved basep1 currentTurnBase) ∨
     (200 ≤ scoreP2After newBoard r c playerWhoMoved basep2 currentTurnBase ∧
        scoreP1After newBoard r c playerWhoMoved basep1 currentTurnBase + 100 ≤
          scoreP2After newBoard r c playerWhoMoved basep2 currentTurnBase) →
      (processTurn newBoard r c playerWhoMoved currentHumanColor basep1 basep2
        currentTurnBase).isGameOver = true) := by
  refine processTurn_cases newBoard r c playerWhoMoved currentHumanColor basep1 basep2
    currentTurnBase
    (fun st =>
      (st.finalResult = some (Who.p1, Why.dominantWin) ↔
        (200 ≤ scoreP1After newBoard r c playerWhoMoved basep1 currentTurnBase ∧
          scoreP2After newBoard r c playerWhoMoved basep2 currentTurnBase + 100 ≤
            scoreP1After newBoard r c playerWhoMoved basep1 currentTurnBase)) ∧
      (st.finalResult = some (Who.p2, Why.dominantWin) ↔
        (200 ≤ scoreP2After newBoard r c playerWhoMoved basep2 currentTurnBase ∧
          scoreP1After newBoard r c playerWhoMoved basep1 currentTurnBase + 100 ≤
            scoreP2After newBoard r c playerWhoMoved basep2 currentTurnBase)) ∧
      ((200 ≤ scoreP1After newBoard r c playerWhoMoved basep1 currentTurnBase ∧
          scoreP2After newBoard r c playerWhoMoved basep2 currentTurnBase + 100 ≤
            scoreP1After newBoard r c playerWhoMoved basep1 currentTurnBase) ∨
       (200 ≤ scoreP2After newBoard r c playerWhoMoved basep2 currentTurnBase ∧
          scoreP1After newBoard r c playerWhoMoved basep1 currentTurnBase + 100 ≤
            scoreP2After newBoard r c playerWhoMoved basep2 currentTurnBase) →
        st.isGameOver = true)) ?_ ?_ ?_ ?_
  · intro h1
    dsimp only
    refine ⟨⟨fun _ => h1, fun _ => rfl⟩, ⟨?_, ?_⟩, fun _ => rfl⟩
    · intro hx
      simp at hx
    · intro hx
      exact absurd hx (by omega)
  · intro h1 h2
    dsimp only
    refine ⟨⟨?_, ?_⟩, ⟨fun _ => h2, fun _ => rfl⟩, fun _ => rfl⟩
    · intro hx
      simp at hx
    · intro hx
      exact absurd hx h1
  · intro h1 h2 h3
    dsimp only
    refine ⟨⟨?_, fun hx => absurd hx h1⟩, ⟨?_, fun hx => absurd hx h2⟩, fun _ => rfl⟩
    · intro hx
      have hx2 := Option.some.inj hx
      have := congrArg Prod.snd hx2
      exact absurd this (getGameResult_not_dominant _ _ _ _)
    · intro hx
      have hx2 := Option.some.inj hx
      have := congrArg Prod.snd hx2
      exact absurd this (getGameResult_not_dominant _ _ _ _)
  · intro h1 h2 h3
    dsimp only
    refine ⟨⟨?_, fun hx => absurd hx h1⟩, ⟨?_, fun hx => absurd hx h2⟩, ?_⟩
    · intro hx
      simp at hx
    · intro hx
      simp at hx
    · intro hor
      rcases hor with hx | hx
      · exact absurd hx h1
      · exact absurd hx h2

/-- Claim C4: after any applied move, the session is terminal with a seat as winner
and reason "dominant win" exactly when that seat's post-explosion score is at
least 200 and exceeds the other seat's by at least 100; the check is decided
by the scores alone, before (and regardless of) the board-full check. -/
theorem dominant_win_exact (newBoard : Board) (r c playerWhoMoved currentHumanColor : Int)
    (basep1 basep2 currentTurnBase : Nat) :
    ((processTurn newBoard r c playerWhoMoved currentHumanColor basep1 basep2
        currentTurnBase).finalResult = some (Who.p1, Why.dominantWin) ↔
      (200 ≤ scoreP1After newBoard r c playerWhoMoved basep1 currentTurnBase ∧
        scoreP2After newBoard r c playerWhoMoved basep2 currentTurnBase + 100 ≤
          scoreP1After newBoard r c playerWhoMoved basep1 currentTurnBase)) ∧
    ((processTurn newBoard r c playerWhoMoved currentHumanColor basep1 basep2
        currentTurnBase).finalResult = some (Who.p2, Why.dominantWin) ↔
      (200 ≤ scoreP2After newBoard r c playerWhoMoved basep2 currentTurnBase ∧
        scoreP1After newBoard r c playerWhoMoved basep1 currentTurnBase + 100 ≤
          scoreP2After newBoard r c playerWhoMoved basep2 currentTurnBase)) ∧
    ((200 ≤ scoreP1After newBoard r c playerWhoMoved basep1 currentTurnBase ∧
        scoreP2After newBoard r c playerWhoMoved basep2 currentTurnBase + 100 ≤
          scoreP1After newBoard r c playerWhoMoved basep1 currentTurnBase) ∨
     (200 ≤ scoreP2After newBoard r c playerWhoMoved basep2 currentTurnBase ∧
        scoreP1After newBoard r c playerWhoMoved basep1 currentTurnBase + 100 ≤
          scoreP2After newBoard r c playerWhoMoved basep2 currentTurnBase) →
      (processTurn newBoard r c playerWhoMoved currentHumanColor basep1 basep2
        currentTurnBase).isGameOver = true) :=
  processTurn_dominant_spec newBoard r c playerWhoMoved currentHumanColor basep1 basep2
    currentTurnBase

/-- Witness for claim C4: on the board `cb5` with base scores
195 and 100, White's explosion of five stones is credited to Seat 1, whose
score reaches exactly 200 with a margin of exactly 100 — terminal (this is
the claim's 200-versus-100 boundary instance). -/
theorem dominant_win_exact_witness :
    (processTurn cb5 7 4 2 1 195 100 0).finalResult = some (Who.p1, Why.dominantWin) ∧
    (processTurn cb5 7 4 2 1 195 100 0).isGameOver = true := by
  have h := dominant_win_exact cb5 7 4 2 1 195 100 0
  exact ⟨h.1.mpr (by decide), h.2.2 (Or.inl (by decide))⟩

/-- Counterexample to claim C5 (that a move leaving scores 200 and 99 is not
terminal): on the concrete board `cb5`, White explodes five stones, Seat 1's
score goes from 195 to 200 while Seat 2 stays at 99 (margin 101), and the
session ends immediately with a dominant win for Seat 1. -/
theorem dominant_200_99_cex :
    (processTurn cb5 7 4 2 1 195 99 0).p1Score = 200 ∧
    (processTurn cb5 7 4 2 1 195 99 0).p2Score = 99 ∧
    (processTurn cb5 7 4 2 1 195 99 0).isGameOver = true ∧
    (processTurn cb5 7 4 2 1 195 99 0).finalResult = some (Who.p1, Why.dominantWin) := by
  decide

/-- Claim C5 as amended: after an applied move leaving one seat's score at 200 and
the other seat's at 99, the session IS terminal under the dominant-win check
(200 meets the threshold and the margin 101 exceeds 100), with the
200-scoring seat as winner. -/
theorem dominant_200_99_terminal (newBoard : Board)
    (r c playerWhoMoved currentHumanColor : Int)
    (basep1 basep2 currentTurnBase : Nat) :
    (scoreP1After newBoard r c playerWhoMoved basep1 currentTurnBase = 200 →
      scoreP2After newBoard r c playerWhoMoved basep2 currentTurnBase = 99 →
      (processTurn newBoard r c playerWhoMoved currentHumanColor basep1 basep2
        currentTurnBase).isGameOver = true ∧
      (processTurn newBoard r c playerWhoMoved currentHumanColor basep1 basep2
        currentTurnBase).finalResult = some (Who.p1, Why.dominantWin)) ∧
    (scoreP2After newBoard r c playerWhoMoved basep2 currentTurnBase = 200 →
      scoreP1After newBoard r c playerWhoMoved basep1 currentTurnBase = 99 →
      (processTurn newBoard r c playerWhoMoved currentHumanColor basep1 basep2
        currentTurnBase).isGameOver = true ∧
      (processTurn newBoard r c playerWhoMoved currentHumanColor basep1 basep2
        currentTurnBase).finalResult = some (Who.p2, Why.dominantWin)) := by
  have h := processTurn_dominant_spec newBoard r c playerWhoMoved currentHumanColor basep1
    basep2 currentTurnBase
  constructor
  · intro h1 h2
    exact ⟨h.2.2 (Or.inl (by omega)), h.1.mpr (by omega)⟩
  · intro h1 h2
    exact ⟨h.2.2 (Or.inr (by omega)), h.2.1.mpr (by omega)⟩

/-- Witness for claim C5 as amended, at the concrete board `cb5`:
the move leaves the scores at 200 and 99 and the session is terminal with a
dominant win. -/
theorem dominant_200_99_terminal_witness :
    (processTurn cb5 7 4 2 1 195 99 0).isGameOver = true ∧
    (processTurn cb5 7 4 2 1 195 99 0).finalResult = some (Who.p1, Why.dominantWin) :=
  (dominant_200_99_terminal cb5 7 4 2 1 195 99 0).1 (by decide) (by decide)

lemma getGameResult_spec (p1Score p2Score : Nat) (finalBoard : Board)
    (currentHumanColor : Int)
    (hhc : currentHumanColor = PLAYER_BLACK ∨ currentHumanColor = PLAYER_WHITE) :
    (p2Score < p1Score →
      getGameResult p1Score p2Score finalBoard currentHumanColor = (Who.p1, Why.higherScore)) ∧
    (p1Score < p2Score →
      getGameResult p1Score p2Score finalBoard currentHumanColor = (Who.p2, Why.higherScore)) ∧
    (p1Score = p2Score →
      (countCells finalBoard
          (if currentHumanColor = PLAYER_BLACK then PLAYER_WHITE else PLAYER_BLACK) <
          countCells finalBoard currentHumanColor →
        getGameResult p1Score p2Score finalBoard currentHumanColor =
          (Who.p2, Why.fewerStonesWin)) ∧
      (countCells finalBoard currentHumanColor <
          countCells finalBoard
            (if currentHumanColor = PLAYER_BLACK then PLAYER_WHITE else PLAYER_BLACK) →
        getGameResult p1Score p2Score finalBoard currentHumanColor =
          (Who.p1, Why.fewerStonesWin)) ∧
      (countCells finalBoard currentHumanColor =
          countCells finalBoard
            (if currentHumanColor = PLAYER_BLACK then PLAYER_WHITE else PLAYER_BLACK) →
        getGameResult p1Score p2Score finalBoard currentHumanColor =
          (Who.tie, Why.fullTie))) := by
  have hstones : countStones finalBoard =
      (countCells finalBoard PLAYER_BLACK, countCells finalBoard PLAYER_WHITE) := rfl
  rcases hhc with hb | hb <;> subst hb <;>
    unfold getGameResult p1StonesOf p2StonesOf <;>
    rw [hstones] <;>
    unfold PLAYER_BLACK PLAYER_WHITE
  · simp only [show (((1 : Int) = 1)) = True from by simp, if_true]
    refine ⟨?_, ?_, ?_⟩
    · intro h
      rw [if_pos h]
    · intro h
      rw [if_neg (by omega), if_pos h]
    · intro heq
      refine ⟨?_, ?_, ?_⟩
      · intro h
        rw [if_neg (by omega), if_neg (by omega), if_pos h]
      · intro h
        rw [if_neg (by omega), if_neg (by omega), if_neg (by omega), if_pos h]
      · intro h
        rw [if_neg (by omega), if_neg (by omega), if_neg (by omega), if_neg (by omega)]
  · simp only [show (((2 : Int) = 1)) = False from by simp, if_false]
    refine ⟨?_, ?_, ?_⟩
    · intro h
      rw [if_pos h]
    · intro h
      rw [if_neg (by omega), if_pos h]
    · intro heq
      refine ⟨?_, ?_, ?_⟩
      · intro h
        rw [if_neg (by omega), if_neg (by omega), if_pos h]
      · intro h
        rw [if_neg (by omega), if_neg (by omega), if_neg (by omega), if_pos h]
      · intro h
        rw [if_neg (by omega), if_neg (by omega), if_neg (by omega), if_neg (by omega)]

/-- Claim C6: when a move leaves the board full and the dominant-win condition does
not hold for either seat, the session is terminal with the `getGameResult`
verdict, resolved in order: strictly higher score wins; on equal scores the
seat with fewer stones of its current color wins; equal scores and equal
stone counts is a full tie. -/
theorem board_full_verdict (newBoard : Board) (r c playerWhoMoved currentHumanColor : Int)
    (basep1 basep2 currentTurnBase : Nat)
    (hnd1 : ¬(200 ≤ scoreP1After newBoard r c playerWhoMoved basep1 currentTurnBase ∧
        scoreP2After newBoard r c playerWhoMoved basep2 currentTurnBase + 100 ≤
          scoreP1After newBoard r c playerWhoMoved basep1 currentTurnBase))
    (hnd2 : ¬(200 ≤ scoreP2After newBoard r c playerWhoMoved basep2 currentTurnBase ∧
        scoreP1After newBoard r c playerWhoMoved basep1 currentTurnBase + 100 ≤
          scoreP2After newBoard r c playerWhoMoved basep2 currentTurnBase))
    (hfull : isBoardFull (boardAfter newBoard r c playerWhoMoved) = true)
    (hhc : currentHumanColor = PLAYER_BLACK ∨ currentHumanColor = PLAYER_WHITE) :
    (processTurn newBoard r c playerWhoMoved currentHumanColor basep1 basep2
      currentTurnBase).isGameOver = true ∧
    (processTurn newBoard r c playerWhoMoved currentHumanColor basep1 basep2
      currentTurnBase).finalResult = some (getGameResult
        (scoreP1After newBoard r c playerWhoMoved basep1 currentTurnBase)
        (scoreP2After newBoard r c playerWhoMoved basep2 currentTurnBase)
        (boardAfter newBoard r c playerWhoMoved) currentHumanColor) ∧
    (scoreP2After newBoard r c playerWhoMoved basep2 currentTurnBase <
        scoreP1After newBoard r c playerWhoMoved basep1 currentTurnBase →
      getGameResult (scoreP1After newBoard r c playerWhoMoved basep1 currentTurnBase)
        (scoreP2After newBoard r c playerWhoMoved basep2 currentTurnBase)
        (boardAfter newBoard r c playerWhoMoved) currentHumanColor =
        (Who.p1, Why.higherScore)) ∧
    (scoreP1After newBoard r c playerWhoMoved basep1 currentTurnBase <
        scoreP2After newBoard r c playerWhoMoved basep2 currentTurnBase →
      getGameResult (scoreP1After newBoard r c playerWhoMoved basep1 currentTurnBase)
        (scoreP2After newBoard r c playerWhoMoved basep2 currentTurnBase)
        (boardAfter newBoard r c playerWhoMoved) currentHumanColor =
        (Who.p2, Why.higherScore)) ∧
    (scoreP1After newBoard r c playerWhoMoved basep1 currentTurnBase =
        scoreP2After newBoard r c playerWhoMoved basep2 currentTurnBase →
      (countCells (boardAfter newBoard r c playerWhoMoved)
          (if currentHumanColor = PLAYER_BLACK then PLAYER_WHITE else PLAYER_BLACK) <
          countCells (boardAfter newBoard r c playerWhoMoved) currentHumanColor →
        getGameResult (scoreP1After newBoard r c playerWhoMoved basep1 currentTurnBase)
          (scoreP2After newBoard r c playerWhoMoved basep2 currentTurnBase)
          (boardAfter newBoard r c playerWhoMoved) currentHumanColor =
          (Who.p2, Why.fewerStonesWin)) ∧
      (countCells (boardAfter newBoard r c playerWhoMoved) currentHumanColor <
          countCells (boardAfter newBoard r c playerWhoMoved)
            (if currentHumanColor = PLAYER_BLACK then PLAYER_WHITE else PLAYER_BLACK) →
        getGameResult (scoreP1After newBoard r c playerWhoMoved basep1 currentTurnBase)
          (scoreP2After newBoard r c playerWhoMoved basep2 currentTurnBase)
          (boardAfter newBoard r c playerWhoMoved) currentHumanColor =
          (Who.p1, Why.fewerStonesWin)) ∧
      (countCells (boardAfter newBoard r c playerWhoMoved) currentHumanColor =
          countCells (boardAfter newBoard r c playerWhoMoved)
            (if currentHumanColor = PLAYER_BLACK then PLAYER_WHITE else PLAYER_BLACK) →
        getGameResult (scoreP1After newBoard r c playerWhoMoved basep1 currentTurnBase)
          (scoreP2After newBoard r c playerWhoMoved basep2 currentTurnBase)
          (boardAfter newBoard r c playerWhoMoved) currentHumanColor =
          (Who.tie, Why.fullTie))) := by
  have hmain := processTurn_cases newBoard r c playerWhoMoved currentHumanColor basep1 basep2
    currentTurnBase
    (fun st => st.isGameOver = true ∧ st.finalResult = some (getGameResult
      (scoreP1After newBoard r c playerWhoMoved basep1 currentTurnBase)
      (scoreP2After newBoard r c playerWhoMoved basep2 currentTurnBase)
      (boardAfter newBoard r c playerWhoMoved) currentHumanColor))
    (fun h1 => absurd h1 hnd1)
    (fun _ h2 => absurd h2 hnd2)
    (fun _ _ _ => ⟨rfl, rfl⟩)
    (fun _ _ h3 => absurd hfull h3)
  have hspec := getGameResult_spec
    (scoreP1After newBoard r c playerWhoMoved basep1 currentTurnBase)
    (scoreP2After newBoard r c playerWhoMoved basep2 currentTurnBase)
    (boardAfter newBoard r c playerWhoMoved) currentHumanColor hhc
  exact ⟨hmain.1, hmain.2, hspec.1, hspec.2.1, hspec.2.2⟩

/-- Witness for claim C6: on the full board `fullMixedB`
(one Black stone just placed at `(0, 0)`, the rest White) with both scores 0,
the session ends and, scores being equal and Seat 1 holding strictly fewer
stones of its color, Seat 1 wins by the stone-count tie break. -/
theorem board_full_verdict_witness :
    (processTurn fullMixedB 0 0 1 1 0 0 0).isGameOver = true ∧
    (processTurn fullMixedB 0 0 1 1 0 0 0).finalResult =
      some (getGameResult (scoreP1After fullMixedB 0 0 1 0 0)
        (scoreP2After fullMixedB 0 0 1 0 0) (boardAfter fullMixedB 0 0 1) 1) := by
  have h := board_full_verdict fullMixedB 0 0 1 1 0 0 0 (by decide) (by decide)
    (by decide) (by decide)
  exact ⟨h.1, h.2.1⟩

/-- Claim C8: a remote move message whose whose target cell is not empty is dropped with
the whole controller state unchanged (board, scores, turn counter, current
mover and seat/color mapping); when the cell is empty the move is applied
through the same `processTurn` path using the color currently due to move. -/
theorem remote_move_guard (s : GameState) (r c : Int) (hin : inBoard r c) :
    (s.board r c ≠ EMPTY → handleRemoteMove s r c = s) ∧
    (s.board r c = EMPTY → handleRemoteMove s r c =
      processTurn (setCell s.board r c s.currentPlayer) r c s.currentPlayer
        s.humanColor s.p1Score s.p2Score s.turnCount) := by
  constructor
  · intro hocc
    unfold handleRemoteMove
    rw [if_neg (fun h => hocc h.2)]
  · intro hemp
    unfold handleRemoteMove
    rw [if_pos ⟨hin, hemp⟩]

/-- Witness for claim C8: in the state `stateW` the cell `(7, 4)`
is occupied, so the incoming remote move for it is dropped and the state is
returned unchanged. -/
theorem remote_move_guard_witness : handleRemoteMove stateW 7 4 = stateW :=
  (remote_move_guard stateW 7 4 (by decide)).1 (by decide)

lemma mem_ite_nil {α : Type} (P : Prop) [Decidable P] (l : List α) (x : α) :
    x ∈ (if P then l else []) ↔ P ∧ x ∈ l := by
  split_ifs with h <;> simp [h]

lemma neighborRaw_sound (board : Board) (distance : Nat) (x : Int × Int)
    (hx : x ∈ neighborRaw board distance) :
    inBoard x.1 x.2 ∧ board x.1 x.2 = EMPTY := by
  simp only [neighborRaw, List.mem_flatMap, List.mem_range, List.mem_map, mem_ite_nil,
    List.mem_filterMap, Option.ite_none_right_eq_some, Option.some.injEq] at hx
  obtain ⟨rr, hrr, cc, hcc, hocc, dr, hdr, dc, hdc, hcond, hx⟩ := hx
  rw [← hx]
  exact hcond

lemma neighborRaw_complete (board : Board) (ro co re ce : Int)
    (ho : inBoard ro co) (hocc : board ro co ≠ EMPTY)
    (he : inBoard re ce) (hemp : board re ce = EMPTY)
    (hd1 : re - ro ≤ 1) (hd2 : ro - re ≤ 1) (hd3 : ce - co ≤ 1) (hd4 : co - ce ≤ 1) :
    (re, ce) ∈ neighborRaw board 1 := by
  obtain ⟨hr0, hr1, hc0, hc1⟩ := ho
  unfold neighborRaw
  have hoccC : board ((ro.toNat : Nat) : Int) ((co.toNat : Nat) : Int) ≠ EMPTY := by
    rw [Int.toNat_of_nonneg hr0, Int.toNat_of_nonneg hc0]
    exact hocc
  have m1 : ro.toNat ∈ List.range 15 := List.mem_range.mpr (by omega)
  have m2 : co.toNat ∈ List.range 15 := List.mem_range.mpr (by omega)
  refine List.mem_flatMap.mpr ⟨ro.toNat, m1, ?_⟩
  refine List.mem_flatMap.mpr ⟨co.toNat, m2, ?_⟩
  rw [if_pos hoccC]
  have m3 : (re - ro + 1).toNat ∈ List.range (2 * 1 + 1) := List.mem_range.mpr (by omega)
  have m4 : (ce - co + 1).toNat ∈ List.range (2 * 1 + 1) := List.mem_range.mpr (by omega)
  refine List.mem_flatMap.mpr ⟨re - ro, ?_, ?_⟩
  · exact List.mem_map.mpr ⟨(re - ro + 1).toNat, m3, by
      show (((re - ro + 1).toNat : Nat) : Int) - ((1 : Nat) : Int) = re - ro
      omega⟩
  · refine List.mem_filterMap.mpr ⟨ce - co, ?_, ?_⟩
    · exact List.mem_map.mpr ⟨(ce - co + 1).toNat, m4, by
        show (((ce - co + 1).toNat : Nat) : Int) - ((1 : Nat) : Int) = ce - co
        omega⟩
    · show (if inBoard (((ro.toNat : Nat) : Int) + (re - ro)) (((co.toNat : Nat) : Int) + (ce - co)) ∧
          board (((ro.toNat : Nat) : Int) + (re - ro)) (((co.toNat : Nat) : Int) + (ce - co)) = EMPTY
        then some ((((ro.toNat : Nat) : Int) + (re - ro)), (((co.toNat : Nat) : Int) + (ce - co)))
        else none) = some (re, ce)
      have e1 : (((ro.toNat : Nat) : Int) + (re - ro)) = re := by omega
      have e2 : (((co.toNat : Nat) : Int) + (ce - co)) = ce := by omega
      rw [e1, e2, if_pos ⟨he, hemp⟩]

lemma stepToward_adj (a b : Int) :
    (if a < b then a + 1 else if b < a then a - 1 else a) - a ≤ 1 ∧
    a - (if a < b then a + 1 else if b < a then a - 1 else a) ≤ 1 := by
  split_ifs <;> omega

lemma stepToward_between (a b lo hi : Int) (ha1 : lo ≤ a) (ha2 : a < hi)
    (hb1 : lo ≤ b) (hb2 : b < hi) :
    lo ≤ (if a < b then a + 1 else if b < a then a - 1 else a) ∧
    (if a < b then a + 1 else if b < a then a - 1 else a) < hi := by
  split_ifs <;> omega

lemma stepToward_closer (a b : Int) (hne : a ≠ b) :
    ((if a < b then a + 1 else if b < a then a - 1 else a) - b).natAbs + 1 =
      (a - b).natAbs := by
  split_ifs <;> omega

lemma stepToward_same (a b : Int) (heq : a = b) :
    (if a < b then a + 1 else if b < a then a - 1 else a) = a := by
  split_ifs <;> omega

lemma neighborRaw_ne_nil_of_mixed (board : Board) :
    ∀ (n : Nat) (ro co re ce : Int), (ro - re).natAbs + (co - ce).natAbs ≤ n →
      inBoard ro co → board ro co ≠ EMPTY → inBoard re ce → board re ce = EMPTY →
      neighborRaw board 1 ≠ [] := by
  intro n
  induction n with
  | zero =>
    intro ro co re ce hd ho hocc he hemp
    have heq : ro = re ∧ co = ce := by omega
    rw [heq.1, heq.2] at hocc
    exact absurd hemp hocc
  | succ k ih =>
    intro ro co re ce hd ho hocc he hemp
    by_cases hclose : (ro - re).natAbs ≤ 1 ∧ (co - ce).natAbs ≤ 1
    · exact List.ne_nil_of_mem (neighborRaw_complete board ro co re ce ho hocc he hemp
        (by omega) (by omega) (by omega) (by omega))
    · have hnontriv : ro ≠ re ∨ co ≠ ce := by omega
      obtain ⟨hr0, hr1, hc0, hc1⟩ := ho
      obtain ⟨he0, he1, he2, he3⟩ := he
      have hrB := stepToward_between ro re 0 15 hr0 hr1 he0 he1
      have hcB := stepToward_between co ce 0 15 hc0 hc1 he2 he3
      have hrA := stepToward_adj ro re
      have hcA := stepToward_adj co ce
      by_cases hemp2 : board (if ro < re then ro + 1 else if re < ro then ro - 1 else ro)
          (if co < ce then co + 1 else if ce < co then co - 1 else co) = EMPTY
      · exact List.ne_nil_of_mem (neighborRaw_complete board ro co
          (if ro < re then ro + 1 else if re < ro then ro - 1 else ro)
          (if co < ce then co + 1 else if ce < co then co - 1 else co)
          ⟨hr0, hr1, hc0, hc1⟩ hocc ⟨hrB.1, hrB.2, hcB.1, hcB.2⟩ hemp2
          (by omega) (by omega) (by omega) (by omega))
      · apply ih (if ro < re then ro + 1 else if re < ro then ro - 1 else ro)
          (if co < ce then co + 1 else if ce < co then co - 1 else co) re ce ?_
          ⟨hrB.1, hrB.2, hcB.1, hcB.2⟩ hemp2 ⟨he0, he1, he2, he3⟩ hemp
        rcases hnontriv with hne | hne
        · have hc2 := stepToward_closer ro re hne
          by_cases hce : co = ce
          · have := stepToward_same co ce hce
            rw [this]
            omega
          · have hc3 := stepToward_closer co ce hce
            omega
        · have hc2 := stepToward_closer co ce hne
          by_cases hre : ro = re
          · have := stepToward_same ro re hre
            rw [this]
            omega
          · have hc3 := stepToward_closer ro re hre
            omega

lemma getEmptyNeighbors_ne_nil (board : Board) (distance : Nat) :
    getEmptyNeighbors board distance ≠ [] := by
  unfold getEmptyNeighbors
  by_cases h : (dedupFirst (neighborRaw board distance)).length = 0
  · rw [if_pos h]
    simp
  · rw [if_neg h]
    intro hnil
    rw [hnil] at h
    simp at h

lemma getEmptyNeighbors_inBoard (board : Board) (distance : Nat) (x : Int × Int)
    (hx : x ∈ getEmptyNeighbors board distance) : inBoard x.1 x.2 := by
  unfold getEmptyNeighbors at hx
  by_cases h : (dedupFirst (neighborRaw board distance)).length = 0
  · rw [if_pos h] at hx
    simp at hx
    rw [hx]
    exact (by decide : inBoard 7 7)
  · rw [if_neg h] at hx
    exact (neighborRaw_sound board distance x ((mem_dedupFirst _ _).mp hx)).1

lemma getEmptyNeighbors_empty_cells (board : Board)
    (hE : ∃ rr cc : Int, inBoard rr cc ∧ board rr cc = EMPTY) :
    ∀ x ∈ getEmptyNeighbors board 1, inBoard x.1 x.2 ∧ board x.1 x.2 = EMPTY := by
  intro x hx
  unfold getEmptyNeighbors at hx
  by_cases h : (dedupFirst (neighborRaw board 1)).length = 0
  · rw [if_pos h] at hx
    simp at hx
    obtain ⟨rr, cc, hin, hemp⟩ := hE
    by_cases h77 : board 7 7 = EMPTY
    · rw [hx]
      exact ⟨(by decide : inBoard 7 7), h77⟩
    · exfalso
      have hraw := neighborRaw_ne_nil_of_mixed board
        (((7 : Int) - rr).natAbs + ((7 : Int) - cc).natAbs) 7 7 rr cc le_rfl
        (by decide) h77 hin hemp
      exact hraw ((dedupFirst_eq_nil _).mp (List.length_eq_zero.mp h))
  · rw [if_neg h] at hx
    exact neighborRaw_sound board 1 x ((mem_dedupFirst _ _).mp hx)

lemma getEasyMove_mem (board : Board) (aiPlayer : Int) (randomIdx : Nat)
    (hidx : randomIdx < (getEmptyNeighbors board 1).length) :
    getEasyMove board aiPlayer randomIdx ∈ getEmptyNeighbors board 1 := by
  unfold getEasyMove
  rw [if_neg (by omega : ¬ (getEmptyNeighbors board 1).length = 0)]
  rw [List.getD_eq_getElem _ _ hidx]
  exact List.getElem_mem hidx

lemma foldl_best_mem (f : Nat × (Int × Int) → Int) :
    ∀ (el : List (Nat × (Int × Int))) (acc : Option ((Int × Int) × Int))
      (S : List (Int × Int)),
      (∀ q ∈ el, q.2 ∈ S) → (∀ a, acc = some a → a.1 ∈ S) →
      ∀ b, el.foldl (fun acc2 q =>
          match acc2 with
          | none => some (q.2, f q)
          | some a => if a.2 < f q then some (q.2, f q) else some a) acc = some b →
        b.1 ∈ S := by
  intro el
  induction el with
  | nil =>
    intro acc S hel hacc b hb
    exact hacc b hb
  | cons q qs ih =>
    intro acc S hel hacc b hb
    rw [List.foldl_cons] at hb
    refine ih _ S (fun q2 hq2 => hel q2 (List.mem_cons_of_mem _ hq2)) ?_ b hb
    intro a ha
    cases acc with
    | none =>
      have ha2 : some (q.2, f q) = some a := ha
      rw [← Option.some.inj ha2]
      exact hel q (List.mem_cons_self _ _)
    | some a0 =>
      have ha0 := hacc a0 rfl
      have ha2 : (if a0.2 < f q then some (q.2, f q) else some a0) = some a := ha
      by_cases hlt : a0.2 < f q
      · rw [if_pos hlt] at ha2
        rw [← Option.some.inj ha2]
        exact hel q (List.mem_cons_self _ _)
      · rw [if_neg hlt] at ha2
        rw [← Option.some.inj ha2]
        exact ha0

lemma foldl_best_some (f : Nat × (Int × Int) → Int) :
    ∀ (el : List (Nat × (Int × Int))) (a : (Int × Int) × Int),
      el.foldl (fun acc2 q =>
          match acc2 with
          | none => some (q.2, f q)
          | some a2 => if a2.2 < f q then some (q.2, f q) else some a2) (some a) ≠ none := by
  intro el
  induction el with
  | nil =>
    intro a h
    exact Option.noConfusion h
  | cons q qs ih =>
    intro a
    rw [List.foldl_cons]
    have hbeta : (match some a with
        | none => some (q.2, f q)
        | some a2 => if a2.2 < f q then some (q.2, f q) else some a2) =
        (if a.2 < f q then some (q.2, f q) else some a) := rfl
    rw [hbeta]
    by_cases hlt : a.2 < f q
    · rw [if_pos hlt]
      exact ih _
    · rw [if_neg hlt]
      exact ih _

lemma enum_snd_mem {α : Type} (l : List α) (q : Nat × α) (hq : q ∈ l.enum) : q.2 ∈ l := by
  rw [List.enum_eq_zip_range] at hq
  rcases q with ⟨i, a⟩
  exact (List.of_mem_zip hq).2

lemma getMediumMove_mem (board : Board) (aiPlayer : Int) (jit : Nat → Int) :
    getMediumMove board aiPlayer jit ∈ getEmptyNeighbors board 1 := by
  have hne := getEmptyNeighbors_ne_nil board 1
  have key : getMediumMove board aiPlayer jit =
      (match List.foldl (fun (acc2 : Option ((Int × Int) × Int)) (q : Nat × (Int × Int)) =>
          match acc2 with
          | none => some (q.2, evaluateMedium (setCell board q.2.1 q.2.2 aiPlayer) aiPlayer
              q.2.1 q.2.2 (jit q.1))
          | some a => if a.2 < evaluateMedium (setCell board q.2.1 q.2.2 aiPlayer) aiPlayer
                q.2.1 q.2.2 (jit q.1) then
              some (q.2, evaluateMedium (setCell board q.2.1 q.2.2 aiPlayer) aiPlayer
                q.2.1 q.2.2 (jit q.1))
            else some a)
        none (getEmptyNeighbors board 1).enum with
      | some a => a.1
      | none => (7, 7)) := rfl
  rw [key]
  cases hfold : List.foldl (fun (acc2 : Option ((Int × Int) × Int)) (q : Nat × (Int × Int)) =>
      match acc2 with
      | none => some (q.2, evaluateMedium (setCell board q.2.1 q.2.2 aiPlayer) aiPlayer
          q.2.1 q.2.2 (jit q.1))
      | some a => if a.2 < evaluateMedium (setCell board q.2.1 q.2.2 aiPlayer) aiPlayer
            q.2.1 q.2.2 (jit q.1) then
          some (q.2, evaluateMedium (setCell board q.2.1 q.2.2 aiPlayer) aiPlayer
            q.2.1 q.2.2 (jit q.1))
        else some a)
      none (getEmptyNeighbors board 1).enum with
  | none =>
    exfalso
    cases hmoves : getEmptyNeighbors board 1 with
    | nil => exact hne hmoves
    | cons m ms =>
      rw [hmoves, List.enum_cons, List.foldl_cons] at hfold
      exact foldl_best_some
        (fun q => evaluateMedium (setCell board q.2.1 q.2.2 aiPlayer) aiPlayer
          q.2.1 q.2.2 (jit q.1)) _ _ hfold
  | some a =>
    exact foldl_best_mem
      (fun q => evaluateMedium (setCell board q.2.1 q.2.2 aiPlayer) aiPlayer
        q.2.1 q.2.2 (jit q.1))
      (getEmptyNeighbors board 1).enum none (getEmptyNeighbors board 1)
      (fun q hq => enum_snd_mem _ q hq) (fun a2 h => Option.noConfusion h) a hfold

lemma getSuperStrongMove_mem (board : Board) (aiPlayer : Int) (jit : Nat → Int) :
    getSuperStrongMove board aiPlayer jit ∈ getEmptyNeighbors board 1 := by
  have hne := getEmptyNeighbors_ne_nil board 1
  have key : getSuperStrongMove board aiPlayer jit =
      (match ((getEmptyNeighbors board 1).enum.map (fun p =>
          (p.2, strongAdjustedScore board aiPlayer p.2 (strongInitialScore board aiPlayer p.2)
            (jit p.1)))).insertionSort (fun a b => b.2 ≤ a.2) with
      | [] => (7, 7)
      | best :: _ => best.1) := rfl
  rw [key]
  cases hs : ((getEmptyNeighbors board 1).enum.map (fun p =>
      (p.2, strongAdjustedScore board aiPlayer p.2 (strongInitialScore board aiPlayer p.2)
        (jit p.1)))).insertionSort (fun a b => b.2 ≤ a.2) with
  | nil =>
    exfalso
    have hperm := List.perm_insertionSort (fun (a b : (Int × Int) × Int) => b.2 ≤ a.2)
      ((getEmptyNeighbors board 1).enum.map (fun p =>
        (p.2, strongAdjustedScore board aiPlayer p.2 (strongInitialScore board aiPlayer p.2)
          (jit p.1))))
    rw [hs] at hperm
    have hmapnil := List.Perm.eq_nil hperm.symm
    have hlen := congrArg List.length hmapnil
    simp only [List.length_map, List.enum_length, List.length_nil] at hlen
    exact hne (List.length_eq_zero.mp hlen)
  | cons best rest =>
    have hperm := List.perm_insertionSort (fun (a b : (Int × Int) × Int) => b.2 ≤ a.2)
      ((getEmptyNeighbors board 1).enum.map (fun p =>
        (p.2, strongAdjustedScore board aiPlayer p.2 (strongInitialScore board aiPlayer p.2)
          (jit p.1))))
    rw [hs] at hperm
    have hmem : best ∈ (getEmptyNeighbors board 1).enum.map (fun p =>
        (p.2, strongAdjustedScore board aiPlayer p.2 (strongInitialScore board aiPlayer p.2)
          (jit p.1))) :=
      hperm.mem_iff.mp (List.mem_cons_self _ _)
    obtain ⟨q, hq, hqe⟩ := List.mem_map.mp hmem
    rw [← hqe]
    exact enum_snd_mem _ q hq

set_option maxHeartbeats 1000000 in
/-- Counterexample to claim C7 as stated: on the fully occupied
board `fullB` there is no empty cell at all, yet the Easy tier does not signal
"no move available" — it returns the centre cell `(7, 7)`, which is occupied
(`getEmptyNeighbors` falls back to the centre even on an exhausted board). -/
theorem easy_full_board_occupied_cex :
    getEasyMove fullB 1 0 = (7, 7) ∧ fullB 7 7 = 1 := by decide

/-- Claim C7 as amended: whenever the board still has at least one empty cell, each
strategy tier (Easy, Medium, Strong) returns an in-bounds empty cell, for
every value of the random index and jitters; on a fully occupied board the
tiers instead return the occupied centre cell and no "no move available"
signal exists. -/
theorem strategies_return_empty_cells (board : Board) (aiPlayer : Int) (randomIdx : Nat)
    (jm js : Nat → Int)
    (hE : ∃ rr cc : Int, inBoard rr cc ∧ board rr cc = EMPTY)
    (hidx : randomIdx < (getEmptyNeighbors board 1).length) :
    (inBoard (getEasyMove board aiPlayer randomIdx).1 (getEasyMove board aiPlayer randomIdx).2 ∧
      board (getEasyMove board aiPlayer randomIdx).1
        (getEasyMove board aiPlayer randomIdx).2 = EMPTY) ∧
    (inBoard (getMediumMove board aiPlayer jm).1 (getMediumMove board aiPlayer jm).2 ∧
      board (getMediumMove board aiPlayer jm).1 (getMediumMove board aiPlayer jm).2 = EMPTY) ∧
    (inBoard (getSuperStrongMove board aiPlayer js).1 (getSuperStrongMove board aiPlayer js).2 ∧
      board (getSuperStrongMove board aiPlayer js).1
        (getSuperStrongMove board aiPlayer js).2 = EMPTY) := by
  have hall := getEmptyNeighbors_empty_cells board hE
  exact ⟨hall _ (getEasyMove_mem board aiPlayer randomIdx hidx),
    hall _ (getMediumMove_mem board aiPlayer jm),
    hall _ (getSuperStrongMove_mem board aiPlayer js)⟩

set_option maxHeartbeats 1000000 in
/-- Witness for claim C7 as amended, on the empty board: every tier
returns the centre cell, which is in bounds and empty. -/
theorem strategies_return_empty_cells_witness :
    (inBoard (getEasyMove emptyB 1 0).1 (getEasyMove emptyB 1 0).2 ∧
      emptyB (getEasyMove emptyB 1 0).1 (getEasyMove emptyB 1 0).2 = EMPTY) ∧
    (inBoard (getMediumMove emptyB 1 zeroJit).1 (getMediumMove emptyB 1 zeroJit).2 ∧
      emptyB (getMediumMove emptyB 1 zeroJit).1 (getMediumMove emptyB 1 zeroJit).2 = EMPTY) ∧
    (inBoard (getSuperStrongMove emptyB 1 zeroJit).1 (getSuperStrongMove emptyB 1 zeroJit).2 ∧
      emptyB (getSuperStrongMove emptyB 1 zeroJit).1
        (getSuperStrongMove emptyB 1 zeroJit).2 = EMPTY) :=
  strategies_return_empty_cells emptyB 1 0 zeroJit zeroJit ⟨0, 0, by decide, rfl⟩ (by decide)

set_option maxHeartbeats 1000000 in
/-- Counterexample to claim C9 (that unrecognized difficulty values behave as
the Random tier): on the board `oneStoneB` with random index 0 and zero
jitters, the dispatch for the unrecognized value `"GOD_MODE"` plays `(1, 1)`
(the Strong tier's choice) while the Random tier plays `(0, 1)`. -/
theorem invalid_difficulty_not_random_cex :
    makeAiMoveChoice ("GOD_MODE") oneStoneB 1 0 zeroJit = (1, 1) ∧
    getEasyMove oneStoneB 1 0 = (0, 1) := by decide

/-- Claim C9 as amended: every difficulty value other than the recognized `"EASY"`
and `"MEDIUM"` falls through to the Strong tier (`getSuperStrongMove`), not
to the Random tier — the dispatch defaults to Strong rather than failing. -/
theorem invalid_difficulty_defaults_strong (difficulty : String)
    (hne1 : difficulty ≠ "EASY") (hne2 : difficulty ≠ "MEDIUM")
    (board : Board) (aiPlayer : Int) (randomIdx : Nat) (jit : Nat → Int) :
    makeAiMoveChoice difficulty board aiPlayer randomIdx jit =
      getSuperStrongMove board aiPlayer jit := by
  unfold makeAiMoveChoice
  rw [if_neg hne1, if_neg hne2]

/-- Witness for claim C9 as amended, at the unrecognized value
`"GOD_MODE"`. -/
theorem invalid_difficulty_defaults_strong_witness :
    makeAiMoveChoice ("GOD_MODE") oneStoneB 1 0 zeroJit =
      getSuperStrongMove oneStoneB 1 zeroJit :=
  invalid_difficulty_defaults_strong ("GOD_MODE") (by decide) (by decide) oneStoneB 1 0 zeroJit

set_option maxHeartbeats 1000000 in
/-- Claim C10: the Strong tier's immediate-neighbour check guards only the row
index, so for the board `edgeB` the candidate `(0, 0)` on the left edge
passes the row guard (`0 - 0 < 15 ∧ 0 ≤ 0 - 0`) while the column index
`0 - 1 = -1` falls outside the board: the raw two-dimensional read is not
in-bounds safe and `cellAt` returns `none` there (JavaScript `undefined`),
which the comparison against `some aiPlayer` treats as "not the AI's color"
(the direction's `lineCount` still counts only the in-bounds neighbour); with
that treatment `getSuperStrongMove` is total and always returns an in-bounds
move, on every board. -/
theorem strong_guard_column_oob :
    ((0, 0) ∈ getEmptyNeighbors edgeB 1 ∧
      ((0 : Int) - 0 < 15 ∧ 0 ≤ (0 : Int) - 0) ∧
      cellAt (setCell edgeB 0 0 1) ((0 : Int) - 0) ((0 : Int) - 1) = none ∧
      strongLineCount (setCell edgeB 0 0 1) 1 0 0 0 1 = 2) ∧
    (∀ (board : Board) (aiPlayer : Int) (jit : Nat → Int),
      inBoard (getSuperStrongMove board aiPlayer jit).1
        (getSuperStrongMove board aiPlayer jit).2) := by
  constructor
  · exact ⟨by decide, by decide, by decide, by decide⟩
  · intro board aiPlayer jit
    exact getEmptyNeighbors_inBoard board 1 _ (getSuperStrongMove_mem board aiPlayer jit)
